import Mathlib

/-!
# Verification of `microphone`: the PortAudio-to-beep sample adapter

A shallow embedding of `src/microphone.go` (and of the test doubles of
`src/microphone_test.go`) together with theorems about the buffering and
draining algorithm of `Streamer.Stream`.

Modelling conventions.

* `float32` and `float64` are abstract types `α` and `β`; the conversion
  `float64(x)` is an abstract function `w : α → β`.
* Go's `error` interface is `Option GoError`; `nil` is `none`.
* Go's `int` is `Int`.  Every value computed by the code lies between
  `-(len + 512)` and `len + 512` whenever the cursor is in `[0, 512]`, so no
  machine overflow can occur in those states.
* A slice index that is out of range panics; this is the `panic` outcome.
* The device (`portaudioStream`) is a record of transition functions on a
  device state `σ`.  `Read` receives the chunk buffer it shares with the
  Streamer and returns the buffer it leaves behind.
* The number of device `Read` invocations is recorded in the ghost field
  `reads` of the result.
-/

set_option autoImplicit false
set_option maxRecDepth 100000

namespace Microphone

variable {σ α β : Type}

/-! ## Outcomes and errors -/

/-- Result of running a piece of Go code. -/
inductive Outcome (ρ : Type) where
  /-- The call returned normally. -/
  | ret (r : ρ) : Outcome ρ
  /-- The call raised a run-time panic (index out of range, makeslice). -/
  | panic : Outcome ρ
  /-- The loop budget of the model was exhausted. -/
  | diverge : Outcome ρ
  deriving DecidableEq, Repr

/-- A Go error value created by `errors.New`. -/
structure GoError where
  msg : String
  deriving DecidableEq, Repr

/-- Source: `errInvalidAmountOfInputChannels` (microphone.go, line 13). -/
def errInvalidAmountOfInputChannels : GoError :=
  ⟨"invalid amount of inputChannels specified. microphone.OpenDefaultStream func expects exactly 2 or 1"⟩

/-- Source: `ErrTest` (microphone_test.go, line 137). -/
def ErrTest : GoError := ⟨"error for testing"⟩

/-- Source: `const bufferSize = 512`. -/
def bufferSize : Int := 512

/-! ## Data model -/

/-- Source: `type portaudioStream interface`.  Each method is a transition on
the device state; `Read` also rewrites the shared chunk buffer. -/
structure portaudioStream (σ α : Type) where
  Start : σ → Option GoError × σ
  Stop : σ → Option GoError × σ
  Read : σ → List (List α) → Option GoError × σ × List (List α)
  Close : σ → Option GoError × σ

/-- Source: `type Streamer struct`. -/
structure Streamer (σ α : Type) where
  stream : σ
  buffer : List (List α)
  pos : Int
  err : Option GoError
  deriving DecidableEq, Repr

/-- Source: `beep.Format`. -/
structure Format where
  SampleRate : Int
  NumChannels : Int
  Precision : Int
  deriving DecidableEq, Repr

/-- What a `Stream` call leaves behind: the two return values, the Streamer,
the destination slice, and the number of device `Read` calls made. -/
structure StreamResult (σ α β : Type) where
  n : Int
  ok : Bool
  s : Streamer σ α
  samples : List (β × β)
  reads : Nat
  deriving DecidableEq, Repr

/-- What `OpenDefaultStream` returns, with the number of slices allocated by
`make` and the number of device-open calls. -/
structure OpenResult (σ α : Type) where
  s : Option (Streamer σ α)
  format : Format
  err : Option GoError
  allocs : Nat
  opens : Nat
  deriving DecidableEq, Repr

/-! ## Slice access -/

/-- Go `xs[i]` as a read: `none` is the index-out-of-range panic. -/
def index {γ : Type} (xs : List γ) (i : Int) : Option γ :=
  if 0 ≤ i then xs[i.toNat]? else none

/-- Go `xs[i] = v`: `none` is the index-out-of-range panic. -/
def assign {γ : Type} (xs : List γ) (i : Int) (v : γ) : Option (List γ) :=
  if 0 ≤ i ∧ i < xs.length then some (xs.set i.toNat v) else none

/-! ## The code -/

/-- Source: `convertBufferIntoSamples` (microphone.go, lines 165-179). -/
def convertBufferIntoSamples (w : α → β) (buffer : List (List α)) (bufferPos : Int) :
    Option (β × β) :=
  if buffer.length > 1 then
    match (index buffer 0).bind (fun c => index c bufferPos),
          (index buffer 1).bind (fun c => index c bufferPos) with
    | some l, some r => some (w l, w r)
    | _, _ => none
  else
    match (index buffer 0).bind (fun c => index c bufferPos) with
    | some l => some (w l, w l)
    | none => none

/-- The two copy loops of `Stream`:
`for i = 0; i < count; i++ { samples[dst+i] = convertBufferIntoSamples(buffer, src+i) }`.
The first argument counts the iterations still to run, the second is `i`. -/
def copyLoop (w : α → β) (buffer : List (List α)) (src dst : Int) :
    Nat → Int → List (β × β) → Option (List (β × β))
  | 0, _, samples => some samples
  | k + 1, i, samples =>
    match convertBufferIntoSamples w buffer (src + i) with
    | none => none
    | some v =>
      match assign samples (dst + i) v with
      | none => none
      | some samples1 => copyLoop w buffer src dst k (i + 1) samples1

/-- The `for { ... }` loop of `Stream` (microphone.go, lines 131-151).  The
first argument bounds the number of iterations; `n` is the local `n`, and
`reads` counts the `Read` calls made so far. -/
def fetchLoop (dev : portaudioStream σ α) (w : α → β) :
    Nat → Streamer σ α → List (β × β) → Int → Nat → Outcome (StreamResult σ α β)
  | 0, _, _, _, _ => Outcome.diverge
  | fuel + 1, s, samples, n, reads =>
    match dev.Read s.stream s.buffer with
    | (some e, st, buf) =>
      Outcome.ret ⟨0, false, ⟨st, buf, s.pos, some e⟩, samples, reads + 1⟩
    | (none, st, buf) =>
      let m : Int := if n + bufferSize > samples.length then samples.length - n else bufferSize
      match copyLoop w buf 0 n m.toNat 0 samples with
      | none => Outcome.panic
      | some samples1 =>
        if n + m = samples.length then
          Outcome.ret ⟨samples.length, true, ⟨st, buf, m, none⟩, samples1, reads + 1⟩
        else
          fetchLoop dev w fuel ⟨st, buf, s.pos, none⟩ samples1 (n + m) (reads + 1)

/-- Source: `(*Streamer).Stream` (microphone.go, lines 109-152). -/
def Streamer.Stream (dev : portaudioStream σ α) (w : α → β) (s : Streamer σ α)
    (samples : List (β × β)) : Outcome (StreamResult σ α β) :=
  if s.err.isSome then
    Outcome.ret ⟨0, false, s, samples, 0⟩
  else
    let n0 : Int := bufferSize - s.pos
    let n : Int := if n0 > samples.length then samples.length else n0
    match copyLoop w s.buffer s.pos 0 n.toNat 0 samples with
    | none => Outcome.panic
    | some samples1 =>
      if n = samples.length then
        Outcome.ret ⟨samples.length, true, { s with pos := s.pos + n }, samples1, 0⟩
      else
        fetchLoop dev w ((samples.length - n).toNat + 1) s samples1 n 0

/-- The index pairs `(buffer index, destination index)` of a copy loop
`for i = 0; i < count; i++ { samples[dst+i] = convertBufferIntoSamples(buffer, src+i) }`,
in the order the loop uses them.  The arguments are those of `copyLoop`. -/
def copyIdx (src dst : Int) : Nat → Int → List (Int × Int)
  | 0, _ => []
  | k + 1, i => (src + i, dst + i) :: copyIdx src dst k (i + 1)

/-- The index pairs used by the `for { ... }` loop of `Stream`: after each
successful `Read` those of the refill copy `samples[n+i] = convert(buffer, i)`,
`i < m`.  The control flow is that of `fetchLoop`; `len` is `len(samples)`. -/
def fetchIdx (dev : portaudioStream σ α) :
    Nat → Streamer σ α → Int → Int → List (Int × Int)
  | 0, _, _, _ => []
  | fuel + 1, s, len, n =>
    match dev.Read s.stream s.buffer with
    | (some _, _, _) => []
    | (none, st, buf) =>
      let m : Int := if n + bufferSize > len then len - n else bufferSize
      copyIdx 0 n m.toNat 0
        ++ (if n + m = len then []
            else fetchIdx dev fuel ⟨st, buf, s.pos, none⟩ len (n + m))

/-- The index pairs `(buffer index, destination index)` used by a `Stream`
call on a destination of `len` entries: those of the first copy
`samples[i] = convert(buffer, pos+i)`, `i < n`, then those of the refill
copies.  The control flow is that of `Streamer.Stream`. -/
def Streamer.accesses (dev : portaudioStream σ α) (s : Streamer σ α) (len : Nat) :
    List (Int × Int) :=
  if s.err.isSome then
    []
  else
    let n0 : Int := bufferSize - s.pos
    let n : Int := if n0 > len then len else n0
    copyIdx s.pos 0 n.toNat 0
      ++ (if n = len then []
          else fetchIdx dev (((len : Int) - n).toNat + 1) s len n)

/-- Source: `(*Streamer).Err`. -/
def Streamer.Err (s : Streamer σ α) : Option GoError := s.err

/-- Source: `(*Streamer).Start`. -/
def Streamer.Start (dev : portaudioStream σ α) (s : Streamer σ α) :
    Option GoError × Streamer σ α :=
  ((dev.Start s.stream).1, { s with stream := (dev.Start s.stream).2 })

/-- Source: `(*Streamer).Stop`. -/
def Streamer.Stop (dev : portaudioStream σ α) (s : Streamer σ α) :
    Option GoError × Streamer σ α :=
  ((dev.Stop s.stream).1, { s with stream := (dev.Stop s.stream).2 })

/-- Source: `(*Streamer).Close`. -/
def Streamer.Close (dev : portaudioStream σ α) (s : Streamer σ α) :
    Option GoError × Streamer σ α :=
  ((dev.Close s.stream).1, { s with stream := (dev.Close s.stream).2 })

/-- Source: `OpenDefaultStream` (microphone.go, lines 47-75).
`paOpen numIn numOut sampleRate framesPerBuffer buffer` stands for
`portaudio.OpenDefaultStream` (the conversion `float64(sampleRate)` is left to
it); `zero` is the `float32` zero that `make` fills the buffers with.  `make([][]float32, inputChannels)` panics for a
negative length. -/
def OpenDefaultStream (paOpen : Int → Int → Int → Int → List (List α) → Except GoError σ)
    (zero : α) (sampleRate inputChannels : Int) : Outcome (OpenResult σ α) :=
  if inputChannels > 2 ∨ inputChannels = 0 then
    Outcome.ret ⟨none, ⟨0, 0, 0⟩, some errInvalidAmountOfInputChannels, 0, 0⟩
  else if inputChannels < 0 then
    Outcome.panic
  else
    let buffer : List (List α) :=
      List.replicate inputChannels.toNat (List.replicate bufferSize.toNat zero)
    match paOpen inputChannels 0 sampleRate bufferSize buffer with
    | Except.error e =>
      Outcome.ret ⟨none, ⟨0, 0, 0⟩, some e, 1 + inputChannels.toNat, 1⟩
    | Except.ok st =>
      Outcome.ret ⟨some ⟨st, buffer, bufferSize, none⟩, ⟨sampleRate, inputChannels, 3⟩, none,
        1 + inputChannels.toNat, 1⟩

/-- Consecutive `Stream` calls, one per destination slice, as driven by the
loop of `testStreamWithSampleSize`; the results are collected in order. -/
def streamAll (dev : portaudioStream σ α) (w : α → β) :
    Streamer σ α → List (List (β × β)) → Outcome (List (StreamResult σ α β))
  | _, [] => Outcome.ret []
  | s, d :: ds =>
    match s.Stream dev w d with
    | Outcome.ret r =>
      match streamAll dev w r.s ds with
      | Outcome.ret rs => Outcome.ret (r :: rs)
      | Outcome.panic => Outcome.panic
      | Outcome.diverge => Outcome.diverge
    | Outcome.panic => Outcome.panic
    | Outcome.diverge => Outcome.diverge

/-- The return values and the number of device reads of each call of a run
of `streamAll` (empty unless the run returned). -/
def readCounts : Outcome (List (StreamResult σ α β)) → List (Int × Bool × Nat)
  | Outcome.ret rs => rs.map (fun r => (r.n, r.ok, r.reads))
  | _ => []

/-- The destinations a run of `streamAll` leaves behind (empty unless the run
returned). -/
def filled : Outcome (List (StreamResult σ α β)) → List (List (β × β))
  | Outcome.ret rs => rs.map (fun r => r.samples)
  | _ => []

/-! ## Test doubles -/

/-- Source: `mockNumberStreamer` (microphone_test.go, lines 66-92).  The
device state is the field `index`; the field `buffer` aliases the Streamer's
buffer and is the argument of `Read`.  `ofInt` is `float32(int)` and `neg` is
the `float32` negation.  `Read` writes `buffer[0][i]` and `buffer[1][i]` for
every `i < len(buffer[0])`; the model is meant for buffers of two channels with
`len(buffer[1]) >= len(buffer[0])`, the only ones the tests build (on others
the Go code panics). -/
def mockNumberStreamer (ofInt : Int → α) (neg : α → α) : portaudioStream Int α where
  Start := fun st => (none, st)
  Stop := fun st => (none, st)
  Read := fun st buffer =>
    let k := (buffer.headD []).length
    let vals : List α := (List.range k).map (fun (i : Nat) => ofInt (st + (i : Int)))
    (none, st + (k : Int),
      vals :: (vals.map neg ++ ((buffer.tail).headD []).drop k) :: buffer.tail.tail)
  Close := fun st => (none, st)

/-- Source: `mockErrorStreamer` (microphone_test.go, lines 139-156). -/
def mockErrorStreamer : portaudioStream Unit α where
  Start := fun st => (none, st)
  Stop := fun st => (none, st)
  Read := fun st buffer => (some ErrTest, st, buffer)
  Close := fun st => (none, st)

/-- A device whose `Start`, `Stop` and `Close` fail with `ErrTest` and count
their calls in the device state, while `Read` always succeeds and leaves the
buffer as it is.  It is not in the source; it exercises the forwarding of
lifecycle errors. -/
def failingLifecycle : portaudioStream Nat α where
  Start := fun st => (some ErrTest, st + 1)
  Stop := fun st => (some ErrTest, st + 1)
  Read := fun st buffer => (none, st, buffer)
  Close := fun st => (some ErrTest, st + 1)

/-- A device whose first `limit` reads succeed, leaving the buffer as it is, and
whose later reads fail with `ErrTest`; the device state counts the reads.  It
is not in the source; it exercises calls on a device that fails only after the
reads the call makes. -/
def failAfter (limit : Nat) : portaudioStream Nat α where
  Start := fun st => (none, st)
  Stop := fun st => (none, st)
  Read := fun st buffer =>
    if st < limit then (none, st + 1, buffer) else (some ErrTest, st + 1, buffer)
  Close := fun st => (none, st)

/-- Source: `newTestableStreamer` (microphone_test.go, lines 94-100), with the
device state `st` the test puts into `s.stream` afterwards. -/
def newTestableStreamer (zero : α) (st : σ) : Streamer σ α :=
  ⟨st, [List.replicate bufferSize.toNat zero, List.replicate bufferSize.toNat zero],
    bufferSize, none⟩

/-- Source: the assertions of `testStreamWithSampleSize` (microphone_test.go,
lines 108-118): pair `j` of call `i` is `(i*N + j, -(i*N + j))`, here as
`(w (ofInt z), w (neg (ofInt z)))` with `z = i*N + j`. -/
def testExpectation (ofInt : Int → α) (neg : α → α) (w : α → β) (numSamples : Nat) :
    List (List (β × β)) :=
  (List.range 3).map (fun (i : Nat) => (List.range numSamples).map (fun (j : Nat) =>
    (w (ofInt ((i * numSamples + j : Nat) : Int)),
      w (neg (ofInt ((i * numSamples + j : Nat) : Int))))))

/-! ## Specification vocabulary -/

/-- The shape of a chunk buffer in the data model: one or two channel
buffers of 512 entries each. -/
def Chunk (buffer : List (List α)) : Prop :=
  (buffer.length = 1 ∨ buffer.length = 2) ∧ ∀ c ∈ buffer, c.length = 512

/-- The columns of a chunk as stereo pairs: a one-channel chunk duplicates its
channel into left and right, a chunk of two (or more) channels maps channel 0
to left and channel 1 to right. -/
def widenColumns (w : α → β) : List (List α) → List (β × β)
  | [] => []
  | [c0] => c0.map (fun x => (w x, w x))
  | c0 :: c1 :: _ => List.zipWith (fun l r => (w l, w r)) c0 c1

/-- The device overwrites a chunk buffer laid out like `buffer` in place: a
`Read` changes entries, never the number of channels or their lengths. -/
def portaudioStream.InPlace (dev : portaudioStream σ α) (buffer : List (List α)) : Prop :=
  ∀ (st : σ) (buf : List (List α)), buf.map List.length = buffer.map List.length →
    (dev.Read st buf).2.2.map List.length = buffer.map List.length

/-- Device state and chunk buffer after `k` consecutive `Read` calls. -/
def readState (dev : portaudioStream σ α) : Nat → σ × List (List α) → σ × List (List α)
  | 0, x => x
  | k + 1, x => readState dev k (dev.Read x.1 x.2).2

/-- The error returned by `Read` number `k` (counting from zero) of a run of
consecutive `Read` calls. -/
def readErr (dev : portaudioStream σ α) (k : Nat) (x : σ × List (List α)) : Option GoError :=
  (dev.Read (readState dev k x).1 (readState dev k x).2).1

/-- The columns of the first `k` chunks `c1 ++ c2 ++ ...` the device delivers,
as stereo pairs. -/
def delivered (dev : portaudioStream σ α) (w : α → β) :
    Nat → σ × List (List α) → List (β × β)
  | 0, _ => []
  | k + 1, x =>
    widenColumns w (dev.Read x.1 x.2).2.2 ++ delivered dev w k (dev.Read x.1 x.2).2

/-- Data-model invariant of a Streamer: a chunk of one or two channels of 512
entries and a cursor in `[0, 512]`. -/
def Streamer.WF (s : Streamer σ α) : Prop :=
  Chunk s.buffer ∧ 0 ≤ s.pos ∧ s.pos ≤ bufferSize

/-- The pairs a Streamer has still to hand out when the device delivers `K`
more chunks: the unread columns of the current chunk, then the columns of the
chunks to come. -/
def pending (dev : portaudioStream σ α) (w : α → β) (s : Streamer σ α) (K : Nat) :
    List (β × β) :=
  (widenColumns w s.buffer).drop s.pos.toNat ++ delivered dev w K (s.stream, s.buffer)

/-- Cut a list into consecutive pieces of the given sizes. -/
def chop {γ : Type} : List Nat → List γ → List (List γ)
  | [], _ => []
  | n :: ns, xs => xs.take n :: chop ns (xs.drop n)

/-- Pairs still missing once the current chunk is drained. -/
def missing (s : Streamer σ α) (samples : List (β × β)) : Nat :=
  samples.length - (512 - s.pos.toNat)

/-- Number of chunks needed to supply the missing pairs. -/
def fetches (s : Streamer σ α) (samples : List (β × β)) : Nat :=
  (missing s samples + 511) / 512

/-! ## Slice and conversion lemmas -/

theorem index_natCast {γ : Type} (xs : List γ) (p : Nat) : index xs (p : Int) = xs[p]? := by
  simp [index]

theorem convert_natCast (w : α → β) (buffer : List (List α)) (p : Nat) :
    convertBufferIntoSamples w buffer (p : Int) = (widenColumns w buffer)[p]? := by
  unfold convertBufferIntoSamples
  have h0 : index buffer 0 = buffer[0]? := index_natCast buffer 0
  have h1 : index buffer 1 = buffer[1]? := index_natCast buffer 1
  rw [h0, h1]
  match buffer with
  | [] => simp [widenColumns]
  | [c0] =>
    simp only [List.length_singleton, gt_iff_lt, lt_self_iff_false, if_false, widenColumns,
      List.getElem?_map, index_natCast]
    simp
    cases c0[p]? <;> simp
  | c0 :: c1 :: rest =>
    simp only [widenColumns, index_natCast, List.getElem?_zipWith]
    simp
    cases c0[p]? <;> cases c1[p]? <;> simp

theorem length_widenColumns (w : α → β) (buffer : List (List α)) (h : Chunk buffer) :
    (widenColumns w buffer).length = 512 := by
  obtain ⟨hl, hc⟩ := h
  match buffer, hl, hc with
  | [c0], _, hc => simp [widenColumns, hc c0 (by simp)]
  | [c0, c1], _, hc => simp [widenColumns, hc c0 (by simp), hc c1 (by simp)]
  | [], hl, _ => simp at hl
  | _ :: _ :: _ :: _, hl, _ => simp at hl

theorem assign_append {γ : Type} (P : List γ) (g : γ) (G : List γ) (v : γ) (i : Int)
    (hi : i = (P.length : Int)) : assign (P ++ g :: G) i v = some (P ++ v :: G) := by
  subst hi
  unfold assign
  rw [if_pos (by constructor <;> simp)]
  simp

theorem copyLoop_append (w : α → β) (buffer : List (List α)) (a d : Nat) :
    ∀ (k j : Nat) (P G : List (β × β)), P.length = d + j → k ≤ G.length →
      a + j + k ≤ (widenColumns w buffer).length →
      copyLoop w buffer (a : Int) (d : Int) k (j : Int) (P ++ G)
        = some (P ++ ((widenColumns w buffer).drop (a + j)).take k ++ G.drop k) := by
  intro k
  induction k with
  | zero => intro j P G _ _ _; simp [copyLoop]
  | succ k ih =>
    intro j P G hP hG ha
    match G, hG with
    | [], hG => simp at hG
    | g :: G1, hG =>
      have hlt : a + j < (widenColumns w buffer).length := by omega
      have hc : convertBufferIntoSamples w buffer ((a : Int) + (j : Int))
          = some ((widenColumns w buffer)[a + j]) := by
        have := convert_natCast w buffer (a + j)
        rw [List.getElem?_eq_getElem hlt] at this
        rw [← this]; push_cast; rfl
      have hs := assign_append P g G1 ((widenColumns w buffer)[a + j]) ((d : Int) + (j : Int))
        (by rw [hP]; push_cast; rfl)
      simp only [copyLoop, hc, hs]
      have h2 := ih (j + 1) (P ++ [(widenColumns w buffer)[a + j]]) G1
        (by simp [hP]; omega) (by simpa using hG) (by omega)
      have e1 : ((j : Int) + 1) = ((j + 1 : Nat) : Int) := by push_cast; rfl
      rw [e1]
      have e2 : P ++ (widenColumns w buffer)[a + j] :: G1
          = (P ++ [(widenColumns w buffer)[a + j]]) ++ G1 := by simp
      rw [e2, h2, List.drop_eq_getElem_cons hlt]
      simp [List.take_succ_cons, Nat.add_assoc]

theorem Chunk.of_map_length {b1 b2 : List (List α)}
    (h : b2.map List.length = b1.map List.length) (hc : Chunk b1) : Chunk b2 := by
  obtain ⟨hl, hall⟩ := hc
  have hlen : b2.length = b1.length := by simpa using congrArg List.length h
  refine ⟨by rw [hlen]; exact hl, ?_⟩
  intro c hcm
  have : c.length ∈ b2.map List.length := List.mem_map_of_mem _ hcm
  rw [h] at this
  obtain ⟨c0, hc0, he⟩ := List.mem_map.mp this
  rw [← he]; exact hall c0 hc0

theorem Chunk.read {dev : portaudioStream σ α} {b0 : List (List α)} (hd : dev.InPlace b0)
    (hc : Chunk b0) (st : σ) {buf : List (List α)}
    (hsh : buf.map List.length = b0.map List.length) : Chunk (dev.Read st buf).2.2 :=
  Chunk.of_map_length (hd st buf hsh) hc

theorem fetchLoop_step_err (dev : portaudioStream σ α) (w : α → β) (fuel : Nat)
    (s : Streamer σ α) (samples : List (β × β)) (n : Int) (reads : Nat) (e : GoError)
    (hr : (dev.Read s.stream s.buffer).1 = some e) :
    fetchLoop dev w (fuel + 1) s samples n reads
      = Outcome.ret ⟨0, false,
          ⟨(dev.Read s.stream s.buffer).2.1, (dev.Read s.stream s.buffer).2.2, s.pos, some e⟩,
          samples, reads + 1⟩ := by
  rcases h : dev.Read s.stream s.buffer with ⟨e1, st, buf⟩
  rw [h] at hr
  simp only at hr
  subst hr
  simp [fetchLoop, h]

theorem fetchLoop_step_ok (dev : portaudioStream σ α) (w : α → β) (fuel : Nat)
    (s : Streamer σ α) (F G : List (β × β)) (reads : Nat)
    (hc : (widenColumns w (dev.Read s.stream s.buffer).2.2).length = 512)
    (hG : 0 < G.length)
    (hr : (dev.Read s.stream s.buffer).1 = none) :
    fetchLoop dev w (fuel + 1) s (F ++ G) (F.length : Int) reads
      = if G.length ≤ 512 then
          Outcome.ret ⟨((F ++ G).length : Int), true,
            ⟨(dev.Read s.stream s.buffer).2.1, (dev.Read s.stream s.buffer).2.2,
              (G.length : Int), none⟩,
            F ++ (widenColumns w (dev.Read s.stream s.buffer).2.2).take G.length, reads + 1⟩
        else
          fetchLoop dev w fuel
            ⟨(dev.Read s.stream s.buffer).2.1, (dev.Read s.stream s.buffer).2.2, s.pos, none⟩
            ((F ++ widenColumns w (dev.Read s.stream s.buffer).2.2) ++ G.drop 512)
            (((F ++ widenColumns w (dev.Read s.stream s.buffer).2.2).length : Nat) : Int)
            (reads + 1) := by
  rcases h : dev.Read s.stream s.buffer with ⟨e1, st, buf⟩
  rw [h] at hr hc
  simp only at hr hc
  subst hr
  by_cases hle : G.length ≤ 512
  · have hm : (if (F.length : Int) + bufferSize > ((F ++ G).length : Int)
        then ((F ++ G).length : Int) - (F.length : Int) else bufferSize) = (G.length : Int) := by
      simp only [bufferSize, List.length_append]; push_cast
      split_ifs <;> omega
    have hcp := copyLoop_append w buf 0 F.length G.length 0 F G (by simp) (le_refl _)
      (by omega)
    simp only [Nat.cast_zero, Nat.add_zero, List.drop_zero, List.drop_length,
      List.append_nil] at hcp
    simp only [fetchLoop, h, hm, Int.toNat_ofNat, hcp, if_pos hle]
    simp
  · have hm : (if (F.length : Int) + bufferSize > ((F ++ G).length : Int)
        then ((F ++ G).length : Int) - (F.length : Int) else bufferSize) = ((512 : Nat) : Int) := by
      simp only [bufferSize, List.length_append]; push_cast
      split_ifs <;> omega
    have hcp := copyLoop_append w buf 0 F.length 512 0 F G (by simp) (by omega)
      (by omega)
    simp only [Nat.cast_zero, Nat.add_zero, List.drop_zero] at hcp
    have ht : (widenColumns w buf).take 512 = widenColumns w buf :=
      List.take_of_length_le (by omega)
    rw [ht] at hcp
    simp only [fetchLoop, h, hm, Int.toNat_ofNat, hcp, if_neg hle]
    have hne : ¬ ((F.length : Int) + ((512 : Nat) : Int) = ((F ++ G).length : Int)) := by
      simp only [List.length_append]; push_cast; omega
    rw [if_neg hne]
    simp [hc]

theorem readErr_zero (dev : portaudioStream σ α) (x : σ × List (List α)) :
    readErr dev 0 x = (dev.Read x.1 x.2).1 := rfl

theorem readErr_succ (dev : portaudioStream σ α) (k : Nat) (x : σ × List (List α)) :
    readErr dev (k + 1) x = readErr dev k (dev.Read x.1 x.2).2 := rfl

theorem length_delivered (dev : portaudioStream σ α) (w : α → β) {b0 : List (List α)}
    (hd : dev.InPlace b0) (hc0 : Chunk b0) :
    ∀ (k : Nat) (x : σ × List (List α)), x.2.map List.length = b0.map List.length →
      (delivered dev w k x).length = 512 * k := by
  intro k
  induction k with
  | zero => intro x _; simp [delivered]
  | succ k ih =>
    intro x hx
    have hc := Chunk.read hd hc0 x.1 hx
    simp only [delivered, List.length_append, length_widenColumns w _ hc, ih _ (hd x.1 x.2 hx)]
    omega

theorem readState_shape {dev : portaudioStream σ α} {b0 : List (List α)}
    (hd : dev.InPlace b0) :
    ∀ (k : Nat) (x : σ × List (List α)), x.2.map List.length = b0.map List.length →
      (readState dev k x).2.map List.length = b0.map List.length := by
  intro k
  induction k with
  | zero => intro x hx; exact hx
  | succ k ih => intro x hx; exact ih _ (hd x.1 x.2 hx)

/-- All device reads succeed: the loop fills the destination. -/
theorem fetchLoop_ok (dev : portaudioStream σ α) (w : α → β) {b0 : List (List α)}
    (hd : dev.InPlace b0) (hc0 : Chunk b0) :
    ∀ (fuel : Nat) (s : Streamer σ α) (F G : List (β × β)) (reads : Nat),
      s.buffer.map List.length = b0.map List.length → 0 < G.length → G.length < fuel →
      (∀ k, 512 * k < G.length → readErr dev k (s.stream, s.buffer) = none) →
      fetchLoop dev w fuel s (F ++ G) (F.length : Int) reads
        = Outcome.ret ⟨((F ++ G).length : Int), true,
            ⟨(readState dev ((G.length + 511) / 512) (s.stream, s.buffer)).1,
              (readState dev ((G.length + 511) / 512) (s.stream, s.buffer)).2,
              (G.length : Int) - 512 * ((((G.length + 511) / 512 : Nat) : Int) - 1), none⟩,
            F ++ (delivered dev w ((G.length + 511) / 512) (s.stream, s.buffer)).take G.length,
            reads + (G.length + 511) / 512⟩ := by
  intro fuel
  induction fuel with
  | zero => intro s F G reads _ _ hf; omega
  | succ fuel ih =>
    intro s F G reads hc hG hf hall
    have hr : (dev.Read s.stream s.buffer).1 = none := hall 0 (by omega)
    have hc1 : Chunk (dev.Read s.stream s.buffer).2.2 := Chunk.read hd hc0 _ hc
    have hw := length_widenColumns w _ hc1
    rw [fetchLoop_step_ok dev w fuel s F G reads hw hG hr]
    by_cases hle : G.length ≤ 512
    · have hK : (G.length + 511) / 512 = 1 := by omega
      rw [if_pos hle, hK]
      simp only [readState, delivered, List.append_nil]
      simp
    · rw [if_neg hle]
      have hK : (G.length + 511) / 512 = ((G.drop 512).length + 511) / 512 + 1 := by
        simp only [List.length_drop]; omega
      have h2 := ih ⟨(dev.Read s.stream s.buffer).2.1, (dev.Read s.stream s.buffer).2.2, s.pos, none⟩
        (F ++ widenColumns w (dev.Read s.stream s.buffer).2.2) (G.drop 512) (reads + 1)
        (hd _ _ hc) (by simp only [List.length_drop]; omega)
        (by simp only [List.length_drop]; omega)
        (by
          intro k hk
          have := hall (k + 1) (by simp only [List.length_drop] at hk; omega)
          rw [readErr_succ] at this
          exact this)
      rw [h2, hK]
      simp only [readState, delivered]
      have e1 : ((F ++ widenColumns w (dev.Read s.stream s.buffer).2.2 ++ G.drop 512).length : Int)
          = ((F ++ G).length : Int) := by
        simp only [List.length_append, List.length_drop, hw]; push_cast; omega
      have e2 : ((G.drop 512).length : Int)
            - 512 * (((((G.drop 512).length + 511) / 512 : Nat) : Int) - 1)
          = (G.length : Int)
            - 512 * ((((((G.drop 512).length + 511) / 512 + 1 : Nat)) : Int) - 1) := by
        simp only [List.length_drop]; push_cast; omega
      have e3 : (widenColumns w (dev.Read s.stream s.buffer).2.2
            ++ delivered dev w (((G.drop 512).length + 511) / 512)
                (dev.Read s.stream s.buffer).2).take G.length
          = widenColumns w (dev.Read s.stream s.buffer).2.2
            ++ (delivered dev w (((G.drop 512).length + 511) / 512)
                (dev.Read s.stream s.buffer).2).take (G.drop 512).length := by
        rw [List.take_append_eq_append_take, List.take_of_length_le (by omega), hw,
          List.length_drop]
      rw [e1, e2, e3]
      simp [Nat.add_assoc, Nat.add_comm 1]

/-- The read number `k` (counting from zero) is the first to fail. -/
theorem fetchLoop_fail (dev : portaudioStream σ α) (w : α → β) {b0 : List (List α)}
    (hd : dev.InPlace b0) (hc0 : Chunk b0) :
    ∀ (fuel : Nat) (s : Streamer σ α) (F G : List (β × β)) (reads k : Nat) (e : GoError),
      s.buffer.map List.length = b0.map List.length → G.length < fuel → 512 * k < G.length →
      (∀ j, j < k → readErr dev j (s.stream, s.buffer) = none) →
      readErr dev k (s.stream, s.buffer) = some e →
      fetchLoop dev w fuel s (F ++ G) (F.length : Int) reads
        = Outcome.ret ⟨0, false,
            ⟨(readState dev (k + 1) (s.stream, s.buffer)).1,
              (readState dev (k + 1) (s.stream, s.buffer)).2, s.pos, some e⟩,
            F ++ delivered dev w k (s.stream, s.buffer) ++ G.drop (512 * k),
            reads + (k + 1)⟩ := by
  intro fuel
  induction fuel with
  | zero => intro s F G reads k e _ hf; omega
  | succ fuel ih =>
    intro s F G reads k e hc hf hk hall hfail
    match k, hk, hall, hfail with
    | 0, _, _, hfail =>
      rw [readErr_zero] at hfail
      rw [fetchLoop_step_err dev w fuel s (F ++ G) _ reads e hfail]
      simp [readState, delivered]
    | k + 1, hk, hall, hfail =>
      have hr : (dev.Read s.stream s.buffer).1 = none := hall 0 (by omega)
      have hc1 : Chunk (dev.Read s.stream s.buffer).2.2 := Chunk.read hd hc0 _ hc
      have hw := length_widenColumns w _ hc1
      rw [fetchLoop_step_ok dev w fuel s F G reads hw (by omega) hr, if_neg (by omega)]
      have h2 := ih ⟨(dev.Read s.stream s.buffer).2.1, (dev.Read s.stream s.buffer).2.2, s.pos, none⟩
        (F ++ widenColumns w (dev.Read s.stream s.buffer).2.2) (G.drop 512) (reads + 1) k e
        (hd _ _ hc) (by simp only [List.length_drop]; omega)
        (by simp only [List.length_drop]; omega)
        (by
          intro j hj
          have := hall (j + 1) (by omega)
          rw [readErr_succ] at this
          exact this)
        (by rw [readErr_succ] at hfail; exact hfail)
      rw [h2]
      simp only [readState, delivered, List.drop_drop]
      have : 512 + 512 * k = 512 * (k + 1) := by ring
      simp [this, Nat.add_assoc, Nat.add_comm 1]

/-- The call is served from the current chunk. -/
theorem Stream_short (dev : portaudioStream σ α) (w : α → β) (s : Streamer σ α)
    (samples : List (β × β)) (hs : s.WF) (he : s.err = none)
    (hN : (samples.length : Int) ≤ 512 - s.pos) :
    s.Stream dev w samples
      = Outcome.ret ⟨(samples.length : Int), true, { s with pos := s.pos + samples.length },
          ((widenColumns w s.buffer).drop s.pos.toNat).take samples.length, 0⟩ := by
  obtain ⟨hc, h0, h1⟩ := hs
  have hw := length_widenColumns w _ hc
  simp only [bufferSize] at h1
  obtain ⟨c, hcp⟩ := Int.eq_ofNat_of_zero_le h0
  have hn : (if bufferSize - s.pos > (samples.length : Int) then (samples.length : Int)
      else bufferSize - s.pos) = (samples.length : Int) := by
    simp only [bufferSize]; split_ifs <;> omega
  have hcp2 := copyLoop_append w s.buffer c 0 samples.length 0 [] samples (by simp)
    (le_refl _) (by omega)
  simp only [Nat.cast_zero, Nat.add_zero, List.nil_append, List.drop_length,
    List.append_nil] at hcp2
  unfold Streamer.Stream
  simp only [he, Option.isSome_none, Bool.false_eq_true, if_false, hn, Int.toNat_ofNat]
  have hc2 : s.pos.toNat = c := by omega
  rw [← hcp] at hcp2
  simp only [hcp2, hc2]
  simp [he]

/-- The call drains the current chunk and enters the fetch loop. -/
theorem Stream_long (dev : portaudioStream σ α) (w : α → β) (s : Streamer σ α)
    (samples : List (β × β)) (hs : s.WF) (he : s.err = none)
    (hN : (samples.length : Int) > 512 - s.pos) :
    s.Stream dev w samples
      = fetchLoop dev w ((samples.drop (512 - s.pos.toNat)).length + 1) s
          ((widenColumns w s.buffer).drop s.pos.toNat ++ samples.drop (512 - s.pos.toNat))
          ((((widenColumns w s.buffer).drop s.pos.toNat).length : Nat) : Int) 0 := by
  obtain ⟨hc, h0, h1⟩ := hs
  have hw := length_widenColumns w _ hc
  simp only [bufferSize] at h1
  obtain ⟨c, hcp⟩ := Int.eq_ofNat_of_zero_le h0
  rw [hcp] at hN h1
  have hn : (if bufferSize - s.pos > (samples.length : Int) then (samples.length : Int)
      else bufferSize - s.pos) = ((512 - c : Nat) : Int) := by
    simp only [bufferSize, hcp]; split_ifs <;> omega
  have hcp2 := copyLoop_append w s.buffer c 0 (512 - c) 0 [] samples (by simp)
    (by omega) (by omega)
  simp only [Nat.cast_zero, Nat.add_zero, List.nil_append] at hcp2
  have ht : ((widenColumns w s.buffer).drop c).take (512 - c) = (widenColumns w s.buffer).drop c :=
    List.take_of_length_le (by simp only [List.length_drop]; omega)
  rw [ht] at hcp2
  unfold Streamer.Stream
  simp only [he, Option.isSome_none, Bool.false_eq_true, if_false, hn, Int.toNat_ofNat]
  have hc2 : s.pos.toNat = c := by omega
  rw [← hcp] at hcp2
  simp only [hcp2, hc2]
  have hne : ¬ (((512 - c : Nat) : Int) = (samples.length : Int)) := by omega
  rw [if_neg hne]
  have e1 : ((samples.length : Int) - ((512 - c : Nat) : Int)).toNat
      = (samples.drop (512 - c)).length := by
    simp only [List.length_drop]; omega
  have e2 : ((512 - c : Nat) : Int) = ((((widenColumns w s.buffer).drop c).length : Nat) : Int) := by
    simp only [List.length_drop, hw]
  rw [e1, e2]

theorem Stream_ok (dev : portaudioStream σ α) (w : α → β) (s : Streamer σ α)
    (hd : dev.InPlace s.buffer) (samples : List (β × β)) (hs : s.WF) (he : s.err = none)
    (hN : (samples.length : Int) > 512 - s.pos)
    (hall : ∀ k, 512 * k < missing s samples → readErr dev k (s.stream, s.buffer) = none) :
    s.Stream dev w samples
      = Outcome.ret ⟨(samples.length : Int), true,
          ⟨(readState dev (fetches s samples) (s.stream, s.buffer)).1,
            (readState dev (fetches s samples) (s.stream, s.buffer)).2,
            (missing s samples : Int) - 512 * ((fetches s samples : Int) - 1), none⟩,
          (widenColumns w s.buffer).drop s.pos.toNat
            ++ (delivered dev w (fetches s samples) (s.stream, s.buffer)).take (missing s samples),
          fetches s samples⟩ := by
  rw [Stream_long dev w s samples hs he hN]
  obtain ⟨hc, h0, h1⟩ := hs
  have hw := length_widenColumns w _ hc
  simp only [bufferSize] at h1
  have hm : (samples.drop (512 - s.pos.toNat)).length = missing s samples := by
    simp [missing]
  have hpos : 0 < missing s samples := by simp only [missing]; omega
  rw [fetchLoop_ok dev w hd hc _ s _ _ 0 rfl (by omega) (by omega) (by rw [hm]; exact hall)]
  simp only [hm, fetches, Nat.zero_add]
  have e1 : (((widenColumns w s.buffer).drop s.pos.toNat
      ++ samples.drop (512 - s.pos.toNat)).length : Int) = (samples.length : Int) := by
    simp only [List.length_append, List.length_drop, hw]; omega
  rw [e1]

theorem Stream_fail (dev : portaudioStream σ α) (w : α → β) (s : Streamer σ α)
    (hd : dev.InPlace s.buffer) (samples : List (β × β)) (hs : s.WF) (he : s.err = none)
    (hN : (samples.length : Int) > 512 - s.pos) (k : Nat) (e : GoError)
    (hk : 512 * k < missing s samples)
    (hall : ∀ j, j < k → readErr dev j (s.stream, s.buffer) = none)
    (hfail : readErr dev k (s.stream, s.buffer) = some e) :
    s.Stream dev w samples
      = Outcome.ret ⟨0, false,
          ⟨(readState dev (k + 1) (s.stream, s.buffer)).1,
            (readState dev (k + 1) (s.stream, s.buffer)).2, s.pos, some e⟩,
          (widenColumns w s.buffer).drop s.pos.toNat
            ++ delivered dev w k (s.stream, s.buffer)
            ++ samples.drop (512 - s.pos.toNat + 512 * k),
          k + 1⟩ := by
  rw [Stream_long dev w s samples hs he hN]
  obtain ⟨hc, h0, h1⟩ := hs
  have hm : (samples.drop (512 - s.pos.toNat)).length = missing s samples := by
    simp [missing]
  rw [fetchLoop_fail dev w hd hc _ s _ _ 0 k e rfl (by omega) (by rw [hm]; exact hk) hall hfail]
  simp [List.drop_drop]

/-- Either every read the call needs succeeds, or there is a first failing one. -/
theorem reads_dichotomy (dev : portaudioStream σ α) (x : σ × List (List α)) (m : Nat) :
    (∀ k, 512 * k < m → readErr dev k x = none) ∨
    ∃ k e, 512 * k < m ∧ (∀ j, j < k → readErr dev j x = none) ∧ readErr dev k x = some e := by
  by_cases h : ∀ k, 512 * k < m → readErr dev k x = none
  · exact Or.inl h
  · right
    push_neg at h
    have hex : ∃ k, 512 * k < m ∧ readErr dev k x ≠ none := h
    classical
    refine ⟨Nat.find hex, ?_⟩
    obtain ⟨h1, h2⟩ := Nat.find_spec hex
    obtain ⟨e, he⟩ := Option.ne_none_iff_exists'.mp h2
    refine ⟨e, h1, ?_, he⟩
    intro j hj
    by_contra hne
    exact Nat.find_min hex hj ⟨by omega, hne⟩


/-! ## The loop budget is never exhausted -/

theorem assign_length {γ : Type} (xs ys : List γ) (i : Int) (v : γ)
    (h : assign xs i v = some ys) : ys.length = xs.length := by
  unfold assign at h
  split at h
  · injection h with h
    rw [← h, List.length_set]
  · cases h

theorem copyLoop_length (w : α → β) (buffer : List (List α)) (src dst : Int) :
    ∀ (k : Nat) (i : Int) (samples out : List (β × β)),
      copyLoop w buffer src dst k i samples = some out → out.length = samples.length := by
  intro k
  induction k with
  | zero =>
    intro i samples out h
    simp only [copyLoop] at h
    injection h with h
    rw [h]
  | succ k ih =>
    intro i samples out h
    simp only [copyLoop] at h
    split at h
    · cases h
    · split at h
      · cases h
      · rename_i v _ samples1 hs
        rw [ih _ _ _ h, assign_length _ _ _ _ hs]

theorem fetchLoop_ne_diverge (dev : portaudioStream σ α) (w : α → β) :
    ∀ (fuel : Nat) (s : Streamer σ α) (samples : List (β × β)) (n : Int) (reads : Nat),
      ((samples.length : Int) - n).toNat < fuel →
      fetchLoop dev w fuel s samples n reads ≠ Outcome.diverge := by
  intro fuel
  induction fuel with
  | zero => intro s samples n reads h; omega
  | succ fuel ih =>
    intro s samples n reads h
    rw [fetchLoop]
    rcases hr : dev.Read s.stream s.buffer with ⟨e, st, buf⟩
    cases e with
    | some e => intro hc; cases hc
    | none =>
      simp only []
      set m : Int := (if n + bufferSize > (samples.length : Int)
        then (samples.length : Int) - n else bufferSize) with hm
      cases hcp : copyLoop w buf 0 n m.toNat 0 samples with
      | none => intro hc; cases hc
      | some samples1 =>
        have hl := copyLoop_length w _ _ _ _ _ _ _ hcp
        simp only []
        by_cases heq : n + m = (samples.length : Int)
        · rw [if_pos heq]
          intro hc; cases hc
        · rw [if_neg heq]
          apply ih
          rw [hl]
          simp only [bufferSize] at hm
          split_ifs at hm <;> omega

/-- The model of `Stream` never runs out of loop budget: on every input the
call returns or panics. -/
theorem Stream_ne_diverge (dev : portaudioStream σ α) (w : α → β) (s : Streamer σ α)
    (samples : List (β × β)) : s.Stream dev w samples ≠ Outcome.diverge := by
  unfold Streamer.Stream
  by_cases he : s.err.isSome = true
  · rw [if_pos he]
    intro hc; cases hc
  · rw [if_neg he]
    simp only []
    set n : Int := (if bufferSize - s.pos > (samples.length : Int)
      then (samples.length : Int) else bufferSize - s.pos) with hn
    cases hcp : copyLoop w s.buffer s.pos 0 n.toNat 0 samples with
    | none => intro hc; cases hc
    | some samples1 =>
      have hl := copyLoop_length w _ _ _ _ _ _ _ hcp
      simp only []
      by_cases heq : n = (samples.length : Int)
      · rw [if_pos heq]
        intro hc; cases hc
      · rw [if_neg heq]
        apply fetchLoop_ne_diverge
        rw [hl]
        omega

/-- For a channel count above two, or zero, `OpenDefaultStream` returns
`errInvalidAmountOfInputChannels` with a nil Streamer and an empty Format,
having allocated nothing and without calling the device open. -/
theorem OpenDefaultStream_rejects
    (paOpen : Int → Int → Int → Int → List (List α) → Except GoError σ) (zero : α)
    (sampleRate c : Int) (hc : c > 2 ∨ c = 0) :
    OpenDefaultStream paOpen zero sampleRate c
      = Outcome.ret ⟨none, ⟨0, 0, 0⟩, some errInvalidAmountOfInputChannels, 0, 0⟩ := by
  unfold OpenDefaultStream
  rw [if_pos hc]

/-- A recorded error short-circuits `Stream`. -/
theorem Stream_of_err (dev : portaudioStream σ α) (w : α → β) (s : Streamer σ α)
    (h : s.err ≠ none) (samples : List (β × β)) :
    s.Stream dev w samples = Outcome.ret ⟨0, false, s, samples, 0⟩ := by
  have hsome : s.err.isSome = true := by
    cases he : s.err with
    | none => exact absurd he h
    | some e => rfl
  simp [Streamer.Stream, hsome]

/-! ## Claims -/

/-- C2 (sticky failure).  For every Streamer state whose `err` is non-nil and
every destination, `Stream` returns `(0, false)`, makes no device `Read` and
leaves the Streamer and the destination as they were; hence any sequence of
further `Stream` calls yields the same result every time and `Err()` keeps
returning the same error. -/
theorem Stream_sticky_failure (dev : portaudioStream σ α) (w : α → β) (s : Streamer σ α)
    (h : s.err ≠ none) :
    (∀ samples : List (β × β),
      s.Stream dev w samples = Outcome.ret ⟨0, false, s, samples, 0⟩) ∧
    (∀ dests : List (List (β × β)),
      streamAll dev w s dests = Outcome.ret (dests.map (fun d => ⟨0, false, s, d, 0⟩))) ∧
    (∀ (dests : List (List (β × β))) (rs : List (StreamResult σ α β)),
      streamAll dev w s dests = Outcome.ret rs →
      ∀ r ∈ rs, r.n = 0 ∧ r.ok = false ∧ r.reads = 0 ∧ r.s.Err = s.Err ∧ r.s.pos = s.pos
        ∧ r.s.buffer = s.buffer) := by
  have h1 : ∀ samples : List (β × β),
      s.Stream dev w samples = Outcome.ret ⟨0, false, s, samples, 0⟩ :=
    Stream_of_err dev w s h
  have h2 : ∀ dests : List (List (β × β)),
      streamAll dev w s dests = Outcome.ret (dests.map (fun d => ⟨0, false, s, d, 0⟩)) := by
    intro dests
    induction dests with
    | nil => rfl
    | cons d ds ih => simp only [streamAll, h1 d, ih, List.map_cons]
  refine ⟨h1, h2, ?_⟩
  intro dests rs hrs r hr
  rw [h2 dests] at hrs
  injection hrs with hrs
  subst hrs
  obtain ⟨d, _, rfl⟩ := List.mem_map.mp hr
  simp

/-- Witness for C2: the Streamer of `TestStreamer_Stream_onError` after its
first call, asked for 100 pairs twice more. -/
theorem Stream_sticky_failure_witness :
    (⟨(), [[0], [0]], 512, some ErrTest⟩ : Streamer Unit Int).err ≠ none ∧
    streamAll mockErrorStreamer (fun x : Int => x)
        (⟨(), [[0], [0]], 512, some ErrTest⟩ : Streamer Unit Int)
        [List.replicate 100 (0, 0), List.replicate 100 (0, 0)]
      = Outcome.ret [⟨0, false, ⟨(), [[0], [0]], 512, some ErrTest⟩, List.replicate 100 (0, 0), 0⟩,
          ⟨0, false, ⟨(), [[0], [0]], 512, some ErrTest⟩, List.replicate 100 (0, 0), 0⟩] :=
  ⟨by simp, (Stream_sticky_failure mockErrorStreamer (fun x : Int => x)
    (⟨(), [[0], [0]], 512, some ErrTest⟩ : Streamer Unit Int) (by simp)).2.1 _⟩

/-- C4, evaluated at the failing input: for a negative channel count the guard
`inputChannels > 2 || inputChannels == 0` does not fire and
`make([][]float32, inputChannels)` panics, so no error value is returned. -/
theorem OpenDefaultStream_negative_panics
    (paOpen : Int → Int → Int → Int → List (List α) → Except GoError σ) (zero : α)
    (sampleRate : Int) :
    OpenDefaultStream paOpen zero sampleRate (-1) = Outcome.panic := by
  simp [OpenDefaultStream]

/-- C5 as stated fails: a Streamer with a recorded error answers a zero-size
destination with `(0, false)`, not `(0, true)`. -/
theorem Stream_empty_counterexample :
    Streamer.Stream mockErrorStreamer (fun x : Int => x)
        (⟨(), [List.replicate 512 0, List.replicate 512 0], 512, some ErrTest⟩ :
          Streamer Unit Int) []
      = Outcome.ret ⟨0, false,
          ⟨(), [List.replicate 512 0, List.replicate 512 0], 512, some ErrTest⟩, [], 0⟩ ∧
    ¬ ∀ s : Streamer Unit Int, ∃ r : StreamResult Unit Int Int,
        s.Stream mockErrorStreamer (fun x : Int => x) [] = Outcome.ret r ∧
        r.n = 0 ∧ r.ok = true ∧ r.reads = 0 := by
  have h : Streamer.Stream mockErrorStreamer (fun x : Int => x)
        (⟨(), [List.replicate 512 0, List.replicate 512 0], 512, some ErrTest⟩ :
          Streamer Unit Int) []
      = Outcome.ret ⟨0, false,
          ⟨(), [List.replicate 512 0, List.replicate 512 0], 512, some ErrTest⟩, [], 0⟩ :=
    Stream_of_err _ _ _ (by simp) []
  refine ⟨h, ?_⟩
  intro hall
  obtain ⟨r, hr, _, hok, _⟩ := hall ⟨(), [List.replicate 512 0, List.replicate 512 0], 512,
    some ErrTest⟩
  rw [h] at hr
  injection hr with hr
  subst hr
  simp at hok

/-- C5, amended.  For every Streamer state with the cursor in `[0, 512]`: if
`err` is nil, a `Stream` call with a zero-size destination returns `(0, true)`,
makes no device `Read` and leaves the Streamer unchanged; if `err` is non-nil
it returns `(0, false)`, also without a `Read`. -/
theorem Stream_empty (dev : portaudioStream σ α) (w : α → β) (s : Streamer σ α)
    (h0 : 0 ≤ s.pos) (h1 : s.pos ≤ 512) :
    (s.err = none →
      s.Stream dev w ([] : List (β × β)) = Outcome.ret ⟨0, true, s, [], 0⟩) ∧
    (s.err ≠ none →
      s.Stream dev w ([] : List (β × β)) = Outcome.ret ⟨0, false, s, [], 0⟩) := by
  constructor
  · intro he
    obtain ⟨st, buf, pos, err⟩ := s
    simp only at he h0 h1
    subst he
    have hn : (if bufferSize - pos > ((([] : List (β × β)).length : Nat) : Int)
        then ((([] : List (β × β)).length : Nat) : Int) else bufferSize - pos) = 0 := by
      simp only [bufferSize, List.length_nil, Nat.cast_zero]; split_ifs <;> omega
    unfold Streamer.Stream
    simp only [Option.isSome_none, Bool.false_eq_true, if_false, hn]
    simp [copyLoop]
  · intro he
    exact Stream_of_err dev w s he []

/-- Witness for C5 (amended): the freshly built test Streamer. -/
theorem Stream_empty_witness :
    (0 : Int) ≤ (newTestableStreamer (0 : Int) ()).pos ∧
    (newTestableStreamer (0 : Int) ()).pos ≤ 512 ∧
    (newTestableStreamer (0 : Int) ()).err = none ∧
    (newTestableStreamer (0 : Int) ()).Stream mockErrorStreamer (fun x : Int => x) []
      = Outcome.ret ⟨0, true, newTestableStreamer (0 : Int) (), [], 0⟩ :=
  ⟨by decide, by decide, rfl,
    (Stream_empty mockErrorStreamer (fun x : Int => x) (newTestableStreamer (0 : Int) ())
      (by decide) (by decide)).1 rfl⟩

/-- C6 (exact fill or failure).  For every Streamer state with `err = nil` and
every destination of size `N`, `Stream` returns, and it returns either
`(N, true)` or `(0, false)`; the answer is `(N, true)` exactly when every
device `Read` the call made succeeded, and then the whole destination has been
overwritten: it holds the unread columns of the old chunk followed by the
columns of the chunks read, cut to `N` pairs. -/
theorem Stream_exact_fill_or_failure (dev : portaudioStream σ α) (w : α → β)
    (s : Streamer σ α) (hd : dev.InPlace s.buffer) (hs : s.WF) (he : s.err = none)
    (samples : List (β × β)) :
    ∃ r, s.Stream dev w samples = Outcome.ret r ∧
      ((r.n = (samples.length : Int) ∧ r.ok = true) ∨ (r.n = 0 ∧ r.ok = false)) ∧
      (r.ok = true ↔ ∀ k, k < r.reads → readErr dev k (s.stream, s.buffer) = none) ∧
      (r.ok = true →
        r.samples = ((widenColumns w s.buffer).drop s.pos.toNat
          ++ delivered dev w r.reads (s.stream, s.buffer)).take samples.length) := by
  have hw := length_widenColumns w _ hs.1
  have h0 := hs.2.1
  have h1 := hs.2.2
  simp only [bufferSize] at h1
  by_cases hN : (samples.length : Int) ≤ 512 - s.pos
  · refine ⟨_, Stream_short dev w s samples hs he hN, Or.inl ⟨rfl, rfl⟩, ?_, ?_⟩
    · simp
    · intro _
      simp [delivered]
  · have hN2 : (samples.length : Int) > 512 - s.pos := by omega
    rcases reads_dichotomy dev (s.stream, s.buffer) (missing s samples) with hall | ⟨k, e, hk, hall, hfail⟩
    · refine ⟨_, Stream_ok dev w s hd samples hs he hN2 hall, Or.inl ⟨rfl, rfl⟩, ?_, ?_⟩
      · simp only [true_iff]
        intro k hk
        apply hall
        simp only [fetches] at hk
        omega
      · intro _
        simp only
        have hl : ((widenColumns w s.buffer).drop s.pos.toNat).length ≤ samples.length := by
          simp only [List.length_drop, hw]; omega
        rw [List.take_append_eq_append_take, List.take_of_length_le hl]
        simp only [List.length_drop, hw, missing]
    · refine ⟨_, Stream_fail dev w s hd samples hs he hN2 k e hk hall hfail, Or.inr ⟨rfl, rfl⟩,
        ?_, ?_⟩
      · simp only [Bool.false_eq_true, false_iff, not_forall]
        exact ⟨k, by omega, by rw [hfail]; simp⟩
      · intro h; simp at h

/-- C3 (all-or-nothing on a failed fetch).  For every Streamer state with
`err = nil` and every destination of size `N > 512 - pos`, the call makes at
least one device `Read`, and if any `Read` it makes fails with error `e`, the
call returns `(0, false)`, `Err()` is `e` afterwards, and that `Read` was the
last one of the call. -/
theorem Stream_fetch_failure (dev : portaudioStream σ α) (w : α → β)
    (s : Streamer σ α) (hd : dev.InPlace s.buffer) (hs : s.WF) (he : s.err = none)
    (samples : List (β × β)) (hN : (samples.length : Int) > 512 - s.pos) :
    ∃ r, s.Stream dev w samples = Outcome.ret r ∧ 1 ≤ r.reads ∧
      ∀ (k : Nat) (e : GoError), k < r.reads →
        readErr dev k (s.stream, s.buffer) = some e →
        r.n = 0 ∧ r.ok = false ∧ r.s.Err = some e ∧ r.reads = k + 1 := by
  have h0 := hs.2.1
  have h1 := hs.2.2
  simp only [bufferSize] at h1
  have hm : 0 < missing s samples := by simp only [missing]; omega
  rcases reads_dichotomy dev (s.stream, s.buffer) (missing s samples) with hall | ⟨k, e, hk, hall, hfail⟩
  · refine ⟨_, Stream_ok dev w s hd samples hs he hN hall, ?_, ?_⟩
    · simp only [fetches]; omega
    · intro k e hk hke
      simp only [fetches] at hk
      rw [hall k (by omega)] at hke
      simp at hke
  · refine ⟨_, Stream_fail dev w s hd samples hs he hN k e hk hall hfail, by simp, ?_⟩
    intro j e2 hj hje
    simp only at hj
    have hjk : j = k := by
      by_contra hne
      have := hall j (by omega)
      rw [this] at hje
      simp at hje
    subst hjk
    rw [hfail] at hje
    injection hje with hje
    subst hje
    simp [Streamer.Err]

/-- C8 (fetch count).  For every Streamer state with `err = nil` and the cursor
in `[0, 512]`, a `Stream` call of size `N` returns; if `N <= 512 - pos` it makes
no device `Read`, whatever the device would do; and if every device `Read` the
call makes succeeds, it returns `(N, true)` after exactly `0` reads if
`N <= 512 - pos` and exactly `ceil((N - (512 - pos)) / 512)` reads otherwise. -/
theorem Stream_fetch_count (dev : portaudioStream σ α) (w : α → β)
    (s : Streamer σ α) (hd : dev.InPlace s.buffer) (hs : s.WF) (he : s.err = none)
    (samples : List (β × β)) :
    ∃ r, s.Stream dev w samples = Outcome.ret r ∧
      ((samples.length : Int) ≤ 512 - s.pos → r.reads = 0) ∧
      ((∀ k, k < r.reads → readErr dev k (s.stream, s.buffer) = none) →
        r.n = (samples.length : Int) ∧ r.ok = true ∧
        ((samples.length : Int) ≤ 512 - s.pos → r.reads = 0) ∧
        ((samples.length : Int) > 512 - s.pos →
          (r.reads : Int) = ((samples.length : Int) - (512 - s.pos) + 511) / 512 ∧
          512 * ((r.reads : Int) - 1) < (samples.length : Int) - (512 - s.pos) ∧
          (samples.length : Int) - (512 - s.pos) ≤ 512 * (r.reads : Int))) := by
  have h0 := hs.2.1
  have h1 := hs.2.2
  simp only [bufferSize] at h1
  by_cases hN : (samples.length : Int) ≤ 512 - s.pos
  · refine ⟨_, Stream_short dev w s samples hs he hN, fun _ => rfl,
      fun _ => ⟨rfl, rfl, fun _ => rfl, ?_⟩⟩
    intro h; omega
  · have hN2 : (samples.length : Int) > 512 - s.pos := by omega
    rcases reads_dichotomy dev (s.stream, s.buffer) (missing s samples) with
      hall | ⟨k, e, hk, hall, hfail⟩
    · refine ⟨_, Stream_ok dev w s hd samples hs he hN2 hall, fun h => absurd h hN,
        fun _ => ⟨rfl, rfl, fun h => absurd h hN, fun _ => ?_⟩⟩
      simp only [fetches, missing]
      omega
    · refine ⟨_, Stream_fail dev w s hd samples hs he hN2 k e hk hall hfail,
        fun h => absurd h hN, ?_⟩
      intro hnone
      have := hnone k (Nat.lt_succ_self k)
      rw [hfail] at this
      cases this

/-! ## Lemmas on opening and on the test doubles -/

theorem bufferSize_toNat : bufferSize.toNat = 512 := rfl

theorem Chunk.replicate (zero : α) (c : Int) (hc : c = 1 ∨ c = 2) :
    Chunk (List.replicate c.toNat (List.replicate bufferSize.toNat zero)) := by
  refine ⟨?_, ?_⟩
  · rw [List.length_replicate]
    rcases hc with h | h <;> subst h
    · exact Or.inl rfl
    · exact Or.inr rfl
  · intro ch hch
    rw [List.eq_of_mem_replicate hch, List.length_replicate, bufferSize_toNat]

theorem newTestableStreamer_WF (zero : α) (st : σ) : (newTestableStreamer zero st).WF := by
  refine ⟨⟨Or.inr rfl, ?_⟩, ?_, ?_⟩
  · intro c hc
    simp only [newTestableStreamer, List.mem_cons, List.mem_singleton, List.not_mem_nil,
      or_false, or_self] at hc
    subst hc
    rw [List.length_replicate, bufferSize_toNat]
  · show (0 : Int) ≤ 512
    decide
  · show (512 : Int) ≤ 512
    decide

theorem mockErrorStreamer_InPlace (buffer : List (List α)) :
    (mockErrorStreamer : portaudioStream Unit α).InPlace buffer := by
  intro st buf h
  exact h

theorem mockErrorStreamer_readErr (k : Nat) (x : Unit × List (List α)) :
    readErr (mockErrorStreamer : portaudioStream Unit α) k x = some ErrTest := rfl

theorem mockNumberStreamer_InPlace (ofInt : Int → α) (neg : α → α) (zero : α) (st : Int) :
    (mockNumberStreamer ofInt neg).InPlace (newTestableStreamer zero st).buffer := by
  intro st1 buf h
  have hb : (newTestableStreamer zero st).buffer.map List.length = [512, 512] := by
    simp only [newTestableStreamer, List.map_cons, List.map_nil, List.length_replicate,
      bufferSize_toNat]
  rw [hb] at h ⊢
  match buf, h with
  | [], h => simp at h
  | [_], h => simp at h
  | _ :: _ :: _ :: _, h => simp at h
  | [c0, c1], h =>
    simp only [List.map_cons, List.map_nil, List.cons.injEq, and_true] at h
    show [((List.range c0.length).map (fun (i : Nat) => ofInt (st1 + (i : Int)))).length,
      (((List.range c0.length).map (fun (i : Nat) => ofInt (st1 + (i : Int)))).map neg
        ++ c1.drop c0.length).length] = [512, 512]
    simp only [List.length_map, List.length_range, List.length_append, List.length_drop, h.1,
      h.2, Nat.sub_self, Nat.add_zero]

theorem mockNumberStreamer_readErr (ofInt : Int → α) (neg : α → α) (k : Nat)
    (x : Int × List (List α)) : readErr (mockNumberStreamer ofInt neg) k x = none := rfl

/-! ## Witnesses for C3, C6 and C8 -/

/-- Witness for C3: `TestStreamer_Stream_onError`, first call.  The fresh test
Streamer on the always-failing device, asked for 100 pairs, returns
`(0, false)` after one `Read` and `Err()` is `ErrTest`. -/
theorem Stream_fetch_failure_witness :
    (newTestableStreamer (0 : Int) ()).WF ∧ (newTestableStreamer (0 : Int) ()).err = none ∧
    ((List.replicate 100 ((0 : Int), (0 : Int))).length : Int)
      > 512 - (newTestableStreamer (0 : Int) ()).pos ∧
    ∃ r, (newTestableStreamer (0 : Int) ()).Stream mockErrorStreamer (fun x : Int => x)
        (List.replicate 100 (0, 0)) = Outcome.ret r ∧
      r.n = 0 ∧ r.ok = false ∧ r.s.Err = some ErrTest ∧ r.reads = 1 := by
  have hN : ((List.replicate 100 ((0 : Int), (0 : Int))).length : Int)
      > 512 - (newTestableStreamer (0 : Int) ()).pos := by
    rw [List.length_replicate]; decide
  refine ⟨newTestableStreamer_WF 0 (), rfl, hN, ?_⟩
  obtain ⟨r, hr, h1, h⟩ := Stream_fetch_failure mockErrorStreamer (fun x : Int => x)
    (newTestableStreamer (0 : Int) ()) (mockErrorStreamer_InPlace _)
    (newTestableStreamer_WF 0 ()) rfl (List.replicate 100 (0, 0)) hN
  obtain ⟨a, b, c, d⟩ := h 0 ErrTest (by omega) (mockErrorStreamer_readErr 0 _)
  exact ⟨r, hr, a, b, c, d⟩

/-- Witness for C6: the fresh test Streamer on the counting device, asked for
612 pairs. -/
theorem Stream_exact_fill_or_failure_witness :
    (newTestableStreamer (0 : Int) (0 : Int)).WF ∧
    (newTestableStreamer (0 : Int) (0 : Int)).err = none ∧
    ∃ r, (newTestableStreamer (0 : Int) (0 : Int)).Stream
        (mockNumberStreamer (fun x : Int => x) (fun x => -x)) (fun x : Int => x)
        (List.replicate 612 (0, 0)) = Outcome.ret r ∧
      ((r.n = ((List.replicate 612 ((0 : Int), (0 : Int))).length : Int) ∧ r.ok = true)
        ∨ (r.n = 0 ∧ r.ok = false)) :=
  ⟨newTestableStreamer_WF 0 0, rfl,
    (Stream_exact_fill_or_failure (mockNumberStreamer (fun x : Int => x) (fun x => -x))
      (fun x : Int => x) (newTestableStreamer (0 : Int) (0 : Int))
      (mockNumberStreamer_InPlace _ _ 0 0) (newTestableStreamer_WF 0 0) rfl
      (List.replicate 612 (0, 0))).imp (fun _ h => ⟨h.1, h.2.1⟩)⟩

theorem failAfter_InPlace (limit : Nat) (buffer : List (List α)) :
    (failAfter limit : portaudioStream Nat α).InPlace buffer := by
  intro st buf h
  show (if st < limit then ((none : Option GoError), st + 1, buf)
    else (some ErrTest, st + 1, buf)).2.2.map List.length = _
  split <;> exact h

/-- Witness for C8.  On the fresh test Streamer a single read of 1024 pairs
makes exactly two device reads and returns `(1024, true)`, on the counting
device and also on a device whose third read would fail; a read of 100 pairs
served from the chunk makes no read even on the always-failing device; of six
consecutive reads of 100 pairs on the counting device the first makes one
device read, reads 2 to 5 make none and the sixth makes exactly one. -/
theorem Stream_fetch_count_witness :
    ((failAfter 2 : portaudioStream Nat Int).InPlace
        (newTestableStreamer (0 : Int) (0 : Nat)).buffer ∧
      (newTestableStreamer (0 : Int) (0 : Nat)).WF ∧
      (newTestableStreamer (0 : Int) (0 : Nat)).err = none ∧
      readErr (failAfter 2 : portaudioStream Nat Int) 2
        ((newTestableStreamer (0 : Int) (0 : Nat)).stream,
          (newTestableStreamer (0 : Int) (0 : Nat)).buffer) = some ErrTest) ∧
    (∃ r, (newTestableStreamer (0 : Int) (0 : Nat)).Stream (failAfter 2) (fun x : Int => x)
        (List.replicate 1024 (0, 0)) = Outcome.ret r ∧
      r.n = 1024 ∧ r.ok = true ∧ r.reads = 2) ∧
    (∃ r, (newTestableStreamer (0 : Int) (0 : Int)).Stream
        (mockNumberStreamer (fun x : Int => x) (fun x => -x)) (fun x : Int => x)
        (List.replicate 1024 (0, 0)) = Outcome.ret r ∧
      r.n = 1024 ∧ r.ok = true ∧ r.reads = 2) ∧
    (∃ r, ({ newTestableStreamer (0 : Int) () with pos := 0 } : Streamer Unit Int).Stream
        mockErrorStreamer (fun x : Int => x) (List.replicate 100 (0, 0)) = Outcome.ret r ∧
      r.n = 100 ∧ r.ok = true ∧ r.reads = 0) ∧
    readCounts (streamAll (mockNumberStreamer (fun x : Int => x) (fun x => -x))
        (fun x : Int => x) (newTestableStreamer 0 0)
        (List.replicate 6 (List.replicate 100 (0, 0))))
      = [(100, true, 1), (100, true, 0), (100, true, 0), (100, true, 0), (100, true, 0),
          (100, true, 1)] := by
  refine ⟨⟨failAfter_InPlace 2 _, newTestableStreamer_WF 0 0, rfl, rfl⟩, ?_, ?_, ?_, by decide⟩
  · -- a device whose third read would fail
    have hN : (((List.replicate 1024 ((0 : Int), (0 : Int))).length : Nat) : Int)
        > 512 - (newTestableStreamer (0 : Int) (0 : Nat)).pos := by
      rw [List.length_replicate]; decide
    have hm : missing (newTestableStreamer (0 : Int) (0 : Nat))
        (List.replicate 1024 ((0 : Int), (0 : Int))) = 1024 := by
      unfold missing
      rw [List.length_replicate]
      rfl
    have hfirst : ∀ k, k < 2 → readErr (failAfter 2 : portaudioStream Nat Int) k
        ((newTestableStreamer (0 : Int) (0 : Nat)).stream,
          (newTestableStreamer (0 : Int) (0 : Nat)).buffer) = none := by
      intro k hk
      match k, hk with
      | 0, _ => rfl
      | 1, _ => rfl
    have hok := Stream_ok (failAfter 2) (fun x : Int => x)
      (newTestableStreamer (0 : Int) (0 : Nat)) (failAfter_InPlace 2 _)
      (List.replicate 1024 (0, 0)) (newTestableStreamer_WF 0 0) rfl hN
      (fun k hk => hfirst k (by rw [hm] at hk; omega))
    obtain ⟨r, hr, _, h⟩ := Stream_fetch_count (failAfter 2) (fun x : Int => x)
      (newTestableStreamer (0 : Int) (0 : Nat)) (failAfter_InPlace 2 _)
      (newTestableStreamer_WF 0 0) rfl (List.replicate 1024 (0, 0))
    have hreads : r.reads = 2 := by
      have e := congrArg StreamResult.reads (Outcome.ret.inj (hr.symm.trans hok))
      rw [e]
      show (missing (newTestableStreamer (0 : Int) (0 : Nat))
        (List.replicate 1024 ((0 : Int), (0 : Int))) + 511) / 512 = 2
      rw [hm]
    obtain ⟨hn, hk, _, _⟩ := h (fun k hk => hfirst k (by omega))
    rw [List.length_replicate] at hn
    exact ⟨r, hr, hn, hk, hreads⟩
  · -- the counting device
    obtain ⟨r, hr, _, h⟩ := Stream_fetch_count
      (mockNumberStreamer (fun x : Int => x) (fun x => -x)) (fun x : Int => x)
      (newTestableStreamer (0 : Int) (0 : Int)) (mockNumberStreamer_InPlace _ _ 0 0)
      (newTestableStreamer_WF 0 0) rfl (List.replicate 1024 (0, 0))
    obtain ⟨hn, hok, _, h⟩ := h (fun k _ => mockNumberStreamer_readErr _ _ k _)
    rw [List.length_replicate] at hn h
    have hp : (newTestableStreamer (0 : Int) (0 : Int)).pos = 512 := rfl
    rw [hp] at h
    have h2 := (h (by decide)).1
    exact ⟨r, hr, hn, hok, by omega⟩
  · -- served from the chunk on the always-failing device
    have hwf : ({ newTestableStreamer (0 : Int) () with pos := 0 } : Streamer Unit Int).WF := by
      refine ⟨(newTestableStreamer_WF (0 : Int) ()).1, ?_, ?_⟩
      · show (0 : Int) ≤ 0
        decide
      · show (0 : Int) ≤ 512
        decide
    obtain ⟨r, hr, h0, h⟩ := Stream_fetch_count mockErrorStreamer (fun x : Int => x)
      ({ newTestableStreamer (0 : Int) () with pos := 0 } : Streamer Unit Int)
      (mockErrorStreamer_InPlace _) hwf rfl (List.replicate 100 (0, 0))
    have hr0 : r.reads = 0 := h0 (by rw [List.length_replicate]; decide)
    obtain ⟨hn, hok, _, _⟩ := h (fun k hk => by omega)
    rw [List.length_replicate] at hn
    exact ⟨r, hr, hn, hok, hr0⟩

/-- What `OpenDefaultStream` computes for one or two channels. -/
theorem OpenDefaultStream_eq
    (paOpen : Int → Int → Int → Int → List (List α) → Except GoError σ) (zero : α)
    (sampleRate c : Int) (hc : c = 1 ∨ c = 2) :
    OpenDefaultStream paOpen zero sampleRate c =
      match paOpen c 0 sampleRate bufferSize
          (List.replicate c.toNat (List.replicate bufferSize.toNat zero)) with
      | Except.error e => Outcome.ret ⟨none, ⟨0, 0, 0⟩, some e, 1 + c.toNat, 1⟩
      | Except.ok st =>
        Outcome.ret ⟨some ⟨st, List.replicate c.toNat (List.replicate bufferSize.toNat zero),
          bufferSize, none⟩, ⟨sampleRate, c, 3⟩, none, 1 + c.toNat, 1⟩ := by
  unfold OpenDefaultStream
  rw [if_neg (by omega), if_neg (by omega)]

theorem WF_fresh (st : σ) (buf : List (List α)) (e : Option GoError) (hc : Chunk buf) :
    (⟨st, buf, 512, e⟩ : Streamer σ α).WF := by
  refine ⟨hc, ?_, ?_⟩
  · show (0 : Int) ≤ 512
    decide
  · show (512 : Int) ≤ 512
    decide

/-- `Stream` returns on every well-formed Streamer and keeps it well formed. -/
theorem Stream_WF (dev : portaudioStream σ α) (w : α → β) (s : Streamer σ α)
    (hd : dev.InPlace s.buffer) (hs : s.WF) (samples : List (β × β)) :
    ∃ r, s.Stream dev w samples = Outcome.ret r ∧ r.s.WF ∧
      r.s.buffer.map List.length = s.buffer.map List.length := by
  have h0 := hs.2.1
  have h1 := hs.2.2
  simp only [bufferSize] at h1
  by_cases he : s.err = none
  · by_cases hN : (samples.length : Int) ≤ 512 - s.pos
    · refine ⟨_, Stream_short dev w s samples hs he hN, ⟨hs.1, ?_, ?_⟩, rfl⟩
      · simp only; omega
      · simp only [bufferSize]; omega
    · have hN2 : (samples.length : Int) > 512 - s.pos := by omega
      have hm : 0 < missing s samples := by simp only [missing]; omega
      rcases reads_dichotomy dev (s.stream, s.buffer) (missing s samples) with
        hall | ⟨k, e, hk, hall, hfail⟩
      · have hsh := readState_shape hd (fetches s samples) (s.stream, s.buffer) rfl
        refine ⟨_, Stream_ok dev w s hd samples hs he hN2 hall,
          ⟨Chunk.of_map_length hsh hs.1, ?_, ?_⟩, hsh⟩
        · simp only [fetches]; omega
        · simp only [fetches, bufferSize]; omega
      · have hsh := readState_shape hd (k + 1) (s.stream, s.buffer) rfl
        exact ⟨_, Stream_fail dev w s hd samples hs he hN2 k e hk hall hfail,
          ⟨Chunk.of_map_length hsh hs.1, h0, hs.2.2⟩, hsh⟩
  · exact ⟨_, Stream_of_err dev w s he samples, hs, rfl⟩

/-- C9 (cursor invariant).  A Streamer returned by `OpenDefaultStream` has
`pos = 512` and satisfies the data-model invariant (`0 <= pos <= 512`, one or
two channel buffers of 512 entries); every `Stream` call on a Streamer that
satisfies the invariant returns and leaves a Streamer that satisfies it,
whatever the destination and whether the call fills it, fails on a device
`Read`, or short-circuits on a recorded error. -/
theorem cursor_invariant :
    (∀ (paOpen : Int → Int → Int → Int → List (List α) → Except GoError σ) (zero : α)
        (sampleRate c : Int) (r : OpenResult σ α) (s : Streamer σ α),
      OpenDefaultStream paOpen zero sampleRate c = Outcome.ret r → r.s = some s →
      s.pos = 512 ∧ s.WF) ∧
    (∀ (dev : portaudioStream σ α) (w : α → β) (s : Streamer σ α) (samples : List (β × β)),
      dev.InPlace s.buffer → s.WF →
      ∃ r, s.Stream dev w samples = Outcome.ret r ∧ r.s.WF ∧ 0 ≤ r.s.pos ∧ r.s.pos ≤ 512) := by
  constructor
  · intro paOpen zero sampleRate c r s hr hs
    by_cases hc : c = 1 ∨ c = 2
    · rw [OpenDefaultStream_eq paOpen zero sampleRate c hc] at hr
      split at hr
      · injection hr with hr
        subst hr
        simp at hs
      · injection hr with hr
        subst hr
        simp only [Option.some.injEq] at hs
        subst hs
        exact ⟨rfl, WF_fresh _ _ _ (Chunk.replicate zero c hc)⟩
    · unfold OpenDefaultStream at hr
      by_cases hg : c > 2 ∨ c = 0
      · rw [if_pos hg] at hr
        injection hr with hr
        subst hr
        simp at hs
      · rw [if_neg hg, if_pos (by omega)] at hr
        cases hr
  · intro dev w s samples hd hs
    obtain ⟨r, hr, hwf, _⟩ := Stream_WF dev w s hd hs samples
    exact ⟨r, hr, hwf, hwf.2.1, hwf.2.2⟩

/-- Witness for C9: opening two channels on a device that accepts, and one
`Stream` call of 612 pairs on the fresh test Streamer. -/
theorem cursor_invariant_witness :
    (∃ s : Streamer Unit Int,
      OpenDefaultStream (fun _ _ _ _ _ => Except.ok ()) (0 : Int) 44100 2
        = Outcome.ret ⟨some s, ⟨44100, 2, 3⟩, none, 3, 1⟩ ∧ s.pos = 512 ∧ s.WF) ∧
    (mockNumberStreamer (fun x : Int => x) (fun x => -x)).InPlace
      (newTestableStreamer (0 : Int) (0 : Int)).buffer ∧
    (newTestableStreamer (0 : Int) (0 : Int)).WF ∧
    ∃ r, (newTestableStreamer (0 : Int) (0 : Int)).Stream
        (mockNumberStreamer (fun x : Int => x) (fun x => -x)) (fun x : Int => x)
        (List.replicate 612 (0, 0)) = Outcome.ret r ∧ r.s.WF ∧ 0 ≤ r.s.pos ∧ r.s.pos ≤ 512 :=
  ⟨⟨_, rfl, (cursor_invariant (β := Int)).1 (fun _ _ _ _ _ => Except.ok ()) (0 : Int) 44100 2 _ _ rfl rfl⟩,
    mockNumberStreamer_InPlace _ _ 0 0, newTestableStreamer_WF 0 0,
    cursor_invariant.2 _ _ _ _ (mockNumberStreamer_InPlace _ _ 0 0)
      (newTestableStreamer_WF 0 0)⟩

/-- C10 (open postcondition).  For channel count `c` in `{1, 2}` and any sample
rate `r`, when the device open succeeds `OpenDefaultStream` returns a Streamer
with exactly `c` channel buffers of 512 entries each, `pos = 512` and
`err = nil`, together with `Format {SampleRate = r, NumChannels = c,
Precision = 3}`; the first `Stream` call on it with a non-empty destination
makes at least one device `Read`, and makes it before any pair is written: if
that first `Read` fails the destination is untouched. -/
theorem OpenDefaultStream_post
    (paOpen : Int → Int → Int → Int → List (List α) → Except GoError σ) (zero : α)
    (sampleRate c : Int) (st : σ) (hc : c = 1 ∨ c = 2)
    (hopen : paOpen c 0 sampleRate 512 (List.replicate c.toNat (List.replicate 512 zero))
      = Except.ok st) :
    ∃ s : Streamer σ α,
      OpenDefaultStream paOpen zero sampleRate c
        = Outcome.ret ⟨some s, ⟨sampleRate, c, 3⟩, none, 1 + c.toNat, 1⟩ ∧
      s.stream = st ∧ (s.buffer.length : Int) = c ∧ (∀ ch ∈ s.buffer, ch.length = 512) ∧
      s.pos = 512 ∧ s.err = none ∧
      ∀ (dev : portaudioStream σ α) (w : α → β) (samples : List (β × β)),
        dev.InPlace s.buffer → samples ≠ [] →
        ∃ r, s.Stream dev w samples = Outcome.ret r ∧ 1 ≤ r.reads ∧
          (readErr dev 0 (s.stream, s.buffer) ≠ none → r.samples = samples) := by
  have hch := Chunk.replicate zero c hc
  rw [bufferSize_toNat] at hch
  refine ⟨⟨st, List.replicate c.toNat (List.replicate 512 zero), 512, none⟩, ?_, rfl, ?_,
    hch.2, rfl, rfl, ?_⟩
  · rw [OpenDefaultStream_eq paOpen zero sampleRate c hc]
    simp only [bufferSize_toNat]
    have : bufferSize = 512 := rfl
    rw [this, hopen]
  · rw [List.length_replicate]; omega
  · intro dev w samples hd hne
    have hs : (⟨st, List.replicate c.toNat (List.replicate 512 zero), 512, none⟩ :
        Streamer σ α).WF := WF_fresh _ _ _ hch
    have hlen : 0 < samples.length := List.length_pos.mpr hne
    have hN : (samples.length : Int) > 512 - (⟨st, List.replicate c.toNat
        (List.replicate 512 zero), 512, none⟩ : Streamer σ α).pos := by
      simp only; omega
    have hw := length_widenColumns w _ hch
    rcases reads_dichotomy dev (st, List.replicate c.toNat (List.replicate 512 zero))
        (missing (⟨st, List.replicate c.toNat (List.replicate 512 zero), 512, none⟩ :
          Streamer σ α) samples) with hall | ⟨k, e, hk, hall, hfail⟩
    · refine ⟨_, Stream_ok dev w _ hd samples hs rfl hN hall, ?_, ?_⟩
      · simp only [fetches, missing]
        have : (512 : Int).toNat = 512 := rfl
        rw [this]; omega
      · intro hne0
        exact absurd (hall 0 (by
          simp only [missing]
          have : (512 : Int).toNat = 512 := rfl
          rw [this]; omega)) hne0
    · refine ⟨_, Stream_fail dev w _ hd samples hs rfl hN k e hk hall hfail, by simp, ?_⟩
      intro hne0
      have hk0 : k = 0 := by
        by_contra hk0
        exact hne0 (hall 0 (by omega))
      subst hk0
      have : (512 : Int).toNat = 512 := rfl
      simp only [this, delivered, List.append_nil]
      rw [List.drop_of_length_le (by omega)]
      simp

/-- Witness for C10: two channels at 44100 Hz on a device whose open succeeds. -/
theorem OpenDefaultStream_post_witness :
    ((2 : Int) = 1 ∨ (2 : Int) = 2) ∧
    (fun (_ _ _ _ : Int) (_ : List (List Int)) => (Except.ok () : Except GoError Unit))
      2 0 44100 512 (List.replicate (2 : Int).toNat (List.replicate 512 0)) = Except.ok () ∧
    ∃ s : Streamer Unit Int,
      OpenDefaultStream (fun _ _ _ _ _ => Except.ok ()) (0 : Int) 44100 2
        = Outcome.ret ⟨some s, ⟨44100, 2, 3⟩, none, 3, 1⟩ ∧
      (s.buffer.length : Int) = 2 ∧ (∀ ch ∈ s.buffer, ch.length = 512) ∧
      s.pos = 512 ∧ s.err = none :=
  ⟨Or.inr rfl, rfl,
    (OpenDefaultStream_post (β := Int) (fun _ _ _ _ _ => Except.ok ()) (0 : Int) 44100 2 ()
      (Or.inr rfl) rfl).imp (fun _ h => ⟨h.1, h.2.2.1, h.2.2.2.1, h.2.2.2.2.1, h.2.2.2.2.2.1⟩)⟩

/-! ## Channel mapping -/

theorem widenColumns_mono_diag (w : α → β) (buffer : List (List α)) (h : buffer.length = 1) :
    ∀ p ∈ widenColumns w buffer, p.1 = p.2 := by
  match buffer, h with
  | [c0], _ =>
    intro p hp
    simp only [widenColumns, List.mem_map] at hp
    obtain ⟨x, _, rfl⟩ := hp
    rfl

theorem delivered_mono_diag (dev : portaudioStream σ α) (w : α → β) {b0 : List (List α)}
    (hd : dev.InPlace b0) (h1 : b0.length = 1) :
    ∀ (k : Nat) (x : σ × List (List α)), x.2.map List.length = b0.map List.length →
      ∀ p ∈ delivered dev w k x, p.1 = p.2 := by
  intro k
  induction k with
  | zero => intro x _ p hp; simp [delivered] at hp
  | succ k ih =>
    intro x hx p hp
    have hsh := hd x.1 x.2 hx
    simp only [delivered, List.mem_append] at hp
    rcases hp with hp | hp
    · refine widenColumns_mono_diag w _ ?_ p hp
      have := congrArg List.length hsh
      simpa [h1] using this
    · exact ih _ hsh p hp

theorem getElem?_append_drop {γ : Type} (A xs : List γ) (i : Nat) (p : γ)
    (h : (A ++ xs.drop A.length)[i]? = some p) : p ∈ A ∨ xs[i]? = some p := by
  by_cases hi : i < A.length
  · left
    rw [List.getElem?_append_left hi] at h
    exact List.getElem?_mem h
  · right
    rw [List.getElem?_append_right (by omega), List.getElem?_drop] at h
    rw [← h]
    congr 1
    omega

/-- C7 (channel mapping).  For every in-range column `p`,
`convertBufferIntoSamples` returns `(w(buffer[0][p]), w(buffer[0][p]))` on a
one-channel buffer and `(w(buffer[0][p]), w(buffer[1][p]))` on a two-channel
buffer; consequently every destination entry a `Stream` call on a mono
Streamer leaves behind is either the entry that was there before the call or a
pair whose left equals its right. -/
theorem channel_mapping (w : α → β) :
    (∀ (c0 : List α) (p : Nat) (hp : p < c0.length),
      convertBufferIntoSamples w [c0] (p : Int) = some (w c0[p], w c0[p])) ∧
    (∀ (c0 c1 : List α) (p : Nat) (hp0 : p < c0.length) (hp1 : p < c1.length),
      convertBufferIntoSamples w [c0, c1] (p : Int) = some (w c0[p], w c1[p])) ∧
    (∀ (dev : portaudioStream σ α) (s : Streamer σ α) (samples : List (β × β)),
      dev.InPlace s.buffer → s.WF → s.buffer.length = 1 →
      ∃ r, s.Stream dev w samples = Outcome.ret r ∧
        ∀ (i : Nat) (p : β × β), r.samples[i]? = some p → p.1 = p.2 ∨ samples[i]? = some p) := by
  refine ⟨?_, ?_, ?_⟩
  · intro c0 p hp
    rw [convert_natCast]
    simp [widenColumns, hp]
  · intro c0 c1 p hp0 hp1
    rw [convert_natCast]
    simp [widenColumns, List.getElem?_zipWith, hp0, hp1]
  · intro dev s samples hd hs hmono
    have hw := length_widenColumns w _ hs.1
    have h0 := hs.2.1
    have h1 := hs.2.2
    simp only [bufferSize] at h1
    have hC : ∀ p ∈ (widenColumns w s.buffer).drop s.pos.toNat, p.1 = p.2 :=
      fun p hp => widenColumns_mono_diag w _ hmono p (List.mem_of_mem_drop hp)
    have hD : ∀ k, ∀ p ∈ delivered dev w k (s.stream, s.buffer), p.1 = p.2 :=
      fun k => delivered_mono_diag dev w hd hmono k _ rfl
    by_cases he : s.err = none
    · by_cases hN : (samples.length : Int) ≤ 512 - s.pos
      · refine ⟨_, Stream_short dev w s samples hs he hN, ?_⟩
        intro i p hp
        exact Or.inl (hC p (List.mem_of_mem_take (List.getElem?_mem hp)))
      · have hN2 : (samples.length : Int) > 512 - s.pos := by omega
        rcases reads_dichotomy dev (s.stream, s.buffer) (missing s samples) with
          hall | ⟨k, e, hk, hall, hfail⟩
        · refine ⟨_, Stream_ok dev w s hd samples hs he hN2 hall, ?_⟩
          intro i p hp
          left
          rcases List.mem_append.mp (List.getElem?_mem hp) with hm | hm
          · exact hC p hm
          · exact hD _ p (List.mem_of_mem_take hm)
        · refine ⟨_, Stream_fail dev w s hd samples hs he hN2 k e hk hall hfail, ?_⟩
          intro i p hp
          have hl : ((widenColumns w s.buffer).drop s.pos.toNat
              ++ delivered dev w k (s.stream, s.buffer)).length
              = 512 - s.pos.toNat + 512 * k := by
            rw [List.length_append, List.length_drop, hw,
              length_delivered dev w hd hs.1 k _ rfl]
          simp only at hp
          rw [← hl] at hp
          rcases getElem?_append_drop _ _ i p hp with hm | hm
          · left
            rcases List.mem_append.mp hm with hm | hm
            · exact hC p hm
            · exact hD _ p hm
          · exact Or.inr hm
    · exact ⟨_, Stream_of_err dev w s he samples, fun i p hp => Or.inr hp⟩

/-! ## Consecutive calls -/

theorem readState_add (dev : portaudioStream σ α) :
    ∀ (a b : Nat) (x : σ × List (List α)),
      readState dev (a + b) x = readState dev b (readState dev a x) := by
  intro a
  induction a with
  | zero => intro b x; simp [readState]
  | succ a ih =>
    intro b x
    rw [show a + 1 + b = (a + b) + 1 by omega]
    simp only [readState]
    exact ih b _

theorem readErr_add (dev : portaudioStream σ α) (a k : Nat) (x : σ × List (List α)) :
    readErr dev k (readState dev a x) = readErr dev (a + k) x := by
  simp only [readErr, readState_add]

theorem delivered_add (dev : portaudioStream σ α) (w : α → β) :
    ∀ (a b : Nat) (x : σ × List (List α)),
      delivered dev w (a + b) x = delivered dev w a x ++ delivered dev w b (readState dev a x) := by
  intro a
  induction a with
  | zero => intro b x; simp [readState, delivered]
  | succ a ih =>
    intro b x
    rw [show a + 1 + b = (a + b) + 1 by omega]
    simp only [delivered, readState, List.append_assoc]
    rw [ih b]

theorem delivered_succ_last (dev : portaudioStream σ α) (w : α → β) (a : Nat)
    (x : σ × List (List α)) :
    delivered dev w (a + 1) x
      = delivered dev w a x ++ widenColumns w (readState dev (a + 1) x).2 := by
  rw [delivered_add dev w a 1 x, readState_add dev a 1 x]
  simp [delivered, readState]

theorem InPlace.of_shape {dev : portaudioStream σ α} {b1 b2 : List (List α)}
    (h : b2.map List.length = b1.map List.length) (hd : dev.InPlace b1) : dev.InPlace b2 := by
  intro st buf hb
  rw [h] at hb ⊢
  exact hd st buf hb

theorem length_pending (dev : portaudioStream σ α) (w : α → β) (s : Streamer σ α)
    (hd : dev.InPlace s.buffer) (hs : s.WF) (K : Nat) :
    (pending dev w s K).length = 512 - s.pos.toNat + 512 * K := by
  simp only [pending, List.length_append, List.length_drop, length_widenColumns w _ hs.1,
    length_delivered dev w hd hs.1 K (s.stream, s.buffer) rfl]

/-- One call when every device read succeeds: the destination receives the next
pairs of the pending stream and the Streamer is left at the continuation. -/
theorem Stream_allOk (dev : portaudioStream σ α) (w : α → β) (s : Streamer σ α)
    (hd : dev.InPlace s.buffer) (hs : s.WF) (he : s.err = none)
    (hall : ∀ k, readErr dev k (s.stream, s.buffer) = none)
    (samples : List (β × β)) (K : Nat)
    (hK : samples.length ≤ 512 - s.pos.toNat + 512 * K) :
    ∃ r, s.Stream dev w samples = Outcome.ret r ∧
      r.n = (samples.length : Int) ∧ r.ok = true ∧
      r.samples = (pending dev w s K).take samples.length ∧
      r.s.WF ∧ r.s.err = none ∧ dev.InPlace r.s.buffer ∧ r.reads ≤ K ∧
      (∀ k, readErr dev k (r.s.stream, r.s.buffer) = none) ∧
      pending dev w r.s (K - r.reads) = (pending dev w s K).drop samples.length := by
  have hw := length_widenColumns w _ hs.1
  have h0 := hs.2.1
  have h1 := hs.2.2
  simp only [bufferSize] at h1
  by_cases hN : (samples.length : Int) ≤ 512 - s.pos
  · have hl : samples.length ≤ ((widenColumns w s.buffer).drop s.pos.toNat).length := by
      rw [List.length_drop, hw]; omega
    refine ⟨_, Stream_short dev w s samples hs he hN, rfl, rfl, ?_, ⟨hs.1, ?_, ?_⟩, he, hd,
      Nat.zero_le _, hall, ?_⟩
    · simp only [pending]
      rw [List.take_append_of_le_length hl]
    · simp only; omega
    · simp only [bufferSize]; omega
    · simp only [pending, Nat.sub_zero]
      rw [List.drop_append_of_le_length hl, List.drop_drop]
      congr 2
      omega
  · have hN2 : (samples.length : Int) > 512 - s.pos := by omega
    have hsh := readState_shape hd (fetches s samples) (s.stream, s.buffer) rfl
    obtain ⟨R1, hR1⟩ : ∃ R1, fetches s samples = R1 + 1 :=
      ⟨fetches s samples - 1, by simp only [fetches, missing]; omega⟩
    have hb1 : 512 * R1 < missing s samples := by
      simp only [fetches] at hR1; omega
    have hb2 : missing s samples ≤ 512 * (R1 + 1) := by
      simp only [fetches] at hR1; omega
    have hNm : samples.length = 512 - s.pos.toNat + missing s samples := by
      simp only [missing]; omega
    have hR : R1 + 1 ≤ K := by omega
    have hlD : (delivered dev w R1 (s.stream, s.buffer)).length = 512 * R1 :=
      length_delivered dev w hd hs.1 R1 (s.stream, s.buffer) rfl
    have hlF : (delivered dev w (R1 + 1) (s.stream, s.buffer)).length = 512 * (R1 + 1) :=
      length_delivered dev w hd hs.1 (R1 + 1) (s.stream, s.buffer) rfl
    have hlC : ((widenColumns w s.buffer).drop s.pos.toNat).length = 512 - s.pos.toNat := by
      rw [List.length_drop, hw]
    have hsplit : delivered dev w K (s.stream, s.buffer)
        = delivered dev w (R1 + 1) (s.stream, s.buffer)
          ++ delivered dev w (K - (R1 + 1)) (readState dev (R1 + 1) (s.stream, s.buffer)) := by
      rw [← delivered_add]
      congr 1
      omega
    have hpos : ((missing s samples : Int) - 512 * (((R1 + 1 : Nat) : Int) - 1)).toNat
        = missing s samples - 512 * R1 := by
      push_cast; omega
    have e_take : (pending dev w s K).take samples.length
        = (widenColumns w s.buffer).drop s.pos.toNat
          ++ (delivered dev w (R1 + 1) (s.stream, s.buffer)).take (missing s samples) := by
      simp only [pending]
      have e1 : samples.length - (512 - s.pos.toNat) = missing s samples := by omega
      rw [List.take_append_eq_append_take, List.take_of_length_le (by rw [hlC]; omega), hlC,
        e1, hsplit, List.take_append_of_le_length (by rw [hlF]; omega)]
    have e_drop : (pending dev w s K).drop samples.length
        = (widenColumns w (readState dev (R1 + 1) (s.stream, s.buffer)).2).drop
            (missing s samples - 512 * R1)
          ++ delivered dev w (K - (R1 + 1)) (readState dev (R1 + 1) (s.stream, s.buffer)) := by
      simp only [pending]
      have e1 : samples.length - (512 - s.pos.toNat) = missing s samples := by omega
      rw [List.drop_append_eq_append_drop, List.drop_of_length_le (by rw [hlC]; omega), hlC,
        e1, hsplit, List.nil_append, List.drop_append_of_le_length (by rw [hlF]; omega),
        delivered_succ_last, List.drop_append_eq_append_drop,
        List.drop_of_length_le (by rw [hlD]; omega), hlD, List.nil_append]
    have hst := Stream_ok dev w s hd samples hs he hN2 (fun k _ => hall k)
    rw [hR1] at hst hsh
    refine ⟨_, hst, rfl, rfl, ?_, ⟨Chunk.of_map_length hsh hs.1, ?_, ?_⟩, rfl,
      InPlace.of_shape hsh hd, hR, ?_, ?_⟩
    · rw [e_take]
    · simp only; push_cast; omega
    · simp only [bufferSize]; push_cast; omega
    · intro k
      have := readErr_add dev (R1 + 1) k (s.stream, s.buffer)
      simp only [Prod.mk.eta]
      rw [this]
      exact hall _
    · rw [e_drop]
      simp only [pending, Prod.mk.eta, hpos]

theorem flatten_chop {γ : Type} :
    ∀ (ns : List Nat) (xs : List γ), (chop ns xs).flatten = xs.take ns.sum := by
  intro ns
  induction ns with
  | nil => intro xs; simp [chop]
  | cons n ns ih =>
    intro xs
    simp only [chop, List.flatten_cons, ih, List.sum_cons, List.take_add]

/-- Consecutive calls when every device read succeeds: call after call the
destinations receive the pending stream, cut at the destination sizes. -/
theorem streamAll_allOk (dev : portaudioStream σ α) (w : α → β) :
    ∀ (dests : List (List (β × β))) (s : Streamer σ α) (K : Nat),
      dev.InPlace s.buffer → s.WF → s.err = none →
      (∀ k, readErr dev k (s.stream, s.buffer) = none) →
      (dests.map List.length).sum ≤ 512 - s.pos.toNat + 512 * K →
      ∃ rs, streamAll dev w s dests = Outcome.ret rs ∧
        rs.map (fun r => (r.n, r.ok)) = dests.map (fun d => ((d.length : Int), true)) ∧
        rs.map (fun r => r.samples) = chop (dests.map List.length) (pending dev w s K) := by
  intro dests
  induction dests with
  | nil => intro s K _ _ _ _ _; exact ⟨[], rfl, rfl, rfl⟩
  | cons d ds ih =>
    intro s K hd hs he hall hK
    simp only [List.map_cons, List.sum_cons] at hK
    obtain ⟨r, hr, hn, hok, hsam, hwf, herr, hd2, hle, hall2, hpend⟩ :=
      Stream_allOk dev w s hd hs he hall d K (by omega)
    have hl1 := length_pending dev w s hd hs K
    have hl2 := length_pending dev w r.s hd2 hwf (K - r.reads)
    rw [hpend, List.length_drop, hl1] at hl2
    obtain ⟨rs, hrs, hnn, hss⟩ := ih r.s (K - r.reads) hd2 hwf herr hall2 (by omega)
    refine ⟨r :: rs, ?_, ?_, ?_⟩
    · simp only [streamAll, hr, hrs]
    · simp only [List.map_cons, hnn, hn, hok]
    · simp only [List.map_cons, chop, hss, hsam, hpend]

/-- C1 (order preservation across chunk boundaries).  Take a freshly opened
stereo Streamer (`pos = 512`, `err = nil`, two channel buffers of 512 entries)
on a device whose reads all succeed, and any list of destinations of sizes
`N1..Nk`.  Every call returns `(Ni, true)`, and the destinations, filled call
after call, are the columns of the delivered chunks `c1 ++ c2 ++ ...` (each
column widened to left = channel 0, right = channel 1) cut at the destination
sizes; in particular their concatenation is the first `N1 + ... + Nk` columns
of `c1 ++ c2 ++ ...`: nothing is dropped, duplicated or reordered. -/
theorem Stream_order_preserved (dev : portaudioStream σ α) (w : α → β) (s : Streamer σ α)
    (hd : dev.InPlace s.buffer) (hstereo : s.buffer.length = 2)
    (hlen : ∀ c ∈ s.buffer, c.length = 512) (hpos : s.pos = 512) (he : s.err = none)
    (hall : ∀ k, readErr dev k (s.stream, s.buffer) = none)
    (dests : List (List (β × β))) (K : Nat) (hK : (dests.map List.length).sum ≤ 512 * K) :
    ∃ rs, streamAll dev w s dests = Outcome.ret rs ∧
      rs.map (fun r => (r.n, r.ok)) = dests.map (fun d => ((d.length : Int), true)) ∧
      rs.map (fun r => r.samples)
        = chop (dests.map List.length) (delivered dev w K (s.stream, s.buffer)) ∧
      (rs.map (fun r => r.samples)).flatten
        = (delivered dev w K (s.stream, s.buffer)).take (dests.map List.length).sum := by
  have hs : s.WF := by
    refine ⟨⟨Or.inr hstereo, hlen⟩, ?_, ?_⟩
    · rw [hpos]; decide
    · rw [hpos]; decide
  have hp : pending dev w s K = delivered dev w K (s.stream, s.buffer) := by
    simp only [pending, hpos]
    rw [List.drop_of_length_le (by rw [length_widenColumns w _ hs.1]; decide), List.nil_append]
  obtain ⟨rs, hrs, hn, hsam⟩ := streamAll_allOk dev w dests s K hd hs he hall
    (by rw [hpos]; omega)
  rw [hp] at hsam
  exact ⟨rs, hrs, hn, hsam, by rw [hsam, flatten_chop]⟩

/-! ## The counting test double -/

theorem take_drop_map_range {γ : Type} (f : Nat → γ) (a N M : Nat) (h : a + N ≤ M) :
    (((List.range M).map f).drop a).take N = (List.range N).map (fun j => f (a + j)) := by
  apply List.ext_getElem?
  intro i
  by_cases hi : i < N
  · rw [List.getElem?_take_of_lt hi, List.getElem?_drop, List.getElem?_map, List.getElem?_map,
      List.getElem?_range (by omega), List.getElem?_range hi]
    rfl
  · rw [List.getElem?_eq_none (by simp; omega), List.getElem?_eq_none (by simp; omega)]

theorem mockNumberStreamer_delivered (ofInt : Int → α) (neg : α → α) (w : α → β) :
    ∀ (K : Nat) (idx : Int) (c0 c1 : List α), c0.length = 512 → c1.length = 512 →
      delivered (mockNumberStreamer ofInt neg) w K (idx, [c0, c1])
        = (List.range (512 * K)).map
            (fun (j : Nat) => (w (ofInt (idx + (j : Int))), w (neg (ofInt (idx + (j : Int)))))) := by
  intro K
  induction K with
  | zero => intro idx c0 c1 _ _; simp [delivered]
  | succ K ih =>
    intro idx c0 c1 h0 h1
    have hread : (mockNumberStreamer ofInt neg).Read idx [c0, c1]
        = (none, idx + ((512 : Nat) : Int),
            [(List.range 512).map (fun (i : Nat) => ofInt (idx + (i : Int))),
              ((List.range 512).map (fun (i : Nat) => ofInt (idx + (i : Int)))).map neg]) := by
      simp only [mockNumberStreamer, List.headD_cons, List.tail_cons, h0,
        List.drop_of_length_le (Nat.le_of_eq h1), List.append_nil, List.tail_nil]
    have hwid : widenColumns w
        [(List.range 512).map (fun (i : Nat) => ofInt (idx + (i : Int))),
          ((List.range 512).map (fun (i : Nat) => ofInt (idx + (i : Int)))).map neg]
        = (List.range 512).map
            (fun (j : Nat) => (w (ofInt (idx + (j : Int))), w (neg (ofInt (idx + (j : Int)))))) := by
      simp only [widenColumns, List.zipWith_map_right, List.zipWith_map_left, List.zipWith_same,
        List.map_map]
      rfl
    show widenColumns w ((mockNumberStreamer ofInt neg).Read idx [c0, c1]).2.2
        ++ delivered (mockNumberStreamer ofInt neg) w K
            ((mockNumberStreamer ofInt neg).Read idx [c0, c1]).2 = _
    rw [hread]
    show widenColumns w
        [(List.range 512).map (fun (i : Nat) => ofInt (idx + (i : Int))),
          ((List.range 512).map (fun (i : Nat) => ofInt (idx + (i : Int)))).map neg]
        ++ delivered (mockNumberStreamer ofInt neg) w K
            (idx + ((512 : Nat) : Int),
              [(List.range 512).map (fun (i : Nat) => ofInt (idx + (i : Int))),
                ((List.range 512).map (fun (i : Nat) => ofInt (idx + (i : Int)))).map neg]) = _
    rw [hwid]
    rw [ih _ _ _ (by rw [List.length_map, List.length_range])
      (by rw [List.length_map, List.length_map, List.length_range]),
      show 512 * (K + 1) = 512 + 512 * K by ring, List.range_add, List.map_append, List.map_map]
    refine congrArg _ ?_
    apply List.map_congr_left
    intro j _
    simp only [Function.comp]
    have e : idx + ((512 : Nat) : Int) + (j : Int) = idx + ((512 + j : Nat) : Int) := by
      push_cast; ring
    rw [e]

/-- The run of `testStreamWithSampleSize`: three consecutive reads of
`numSamples` pairs on the fresh test Streamer with the counting device meet the
assertions of the test, for every `numSamples`. -/
theorem testStreamWithSampleSize_run (ofInt : Int → α) (neg : α → α) (w : α → β) (zero : α)
    (d0 d1 d2 : List (β × β)) (numSamples : Nat) (h0 : d0.length = numSamples)
    (h1 : d1.length = numSamples) (h2 : d2.length = numSamples) :
    filled (streamAll (mockNumberStreamer ofInt neg) w (newTestableStreamer zero 0) [d0, d1, d2])
      = testExpectation ofInt neg w numSamples ∧
    (readCounts (streamAll (mockNumberStreamer ofInt neg) w (newTestableStreamer zero 0)
        [d0, d1, d2])).map (fun t => (t.1, t.2.1))
      = List.replicate 3 ((numSamples : Int), true) := by
  obtain ⟨rs, hrs, hn, hsam⟩ := streamAll_allOk (mockNumberStreamer ofInt neg) w [d0, d1, d2]
    (newTestableStreamer zero 0) (3 * numSamples) (mockNumberStreamer_InPlace _ _ zero 0)
    (newTestableStreamer_WF zero 0) rfl (fun k => mockNumberStreamer_readErr _ _ k _)
    (by simp only [List.map_cons, List.map_nil, List.sum_cons, List.sum_nil, h0, h1, h2]; omega)
  have hp : pending (mockNumberStreamer ofInt neg) w (newTestableStreamer zero (0 : Int))
        (3 * numSamples)
      = (List.range (512 * (3 * numSamples))).map
          (fun (j : Nat) => (w (ofInt (j : Int)), w (neg (ofInt (j : Int))))) := by
    have hw := length_widenColumns w _ (newTestableStreamer_WF zero (0 : Int)).1
    unfold pending
    rw [List.drop_of_length_le (by rw [hw]; exact Nat.le_of_eq rfl), List.nil_append]
    show delivered (mockNumberStreamer ofInt neg) w (3 * numSamples)
        (0, [List.replicate 512 zero, List.replicate 512 zero]) = _
    rw [mockNumberStreamer_delivered ofInt neg w _ 0 _ _ (List.length_replicate _ _)
      (List.length_replicate _ _)]
    apply List.map_congr_left
    intro j _
    simp only [zero_add]
  constructor
  · rw [hrs]
    simp only [filled, hsam, hp, List.map_cons, List.map_nil, h0, h1, h2, chop, List.drop_drop]
    have t0 := take_drop_map_range
      (fun (j : Nat) => (w (ofInt (j : Int)), w (neg (ofInt (j : Int)))))
      0 numSamples (512 * (3 * numSamples)) (by omega)
    have t1 := take_drop_map_range
      (fun (j : Nat) => (w (ofInt (j : Int)), w (neg (ofInt (j : Int)))))
      numSamples numSamples (512 * (3 * numSamples)) (by omega)
    have t2 := take_drop_map_range
      (fun (j : Nat) => (w (ofInt (j : Int)), w (neg (ofInt (j : Int)))))
      (numSamples + numSamples) numSamples (512 * (3 * numSamples)) (by omega)
    rw [List.drop_zero] at t0
    rw [t0, t1, t2]
    simp only [testExpectation, List.range_succ, List.range_zero, List.nil_append,
      List.map_append, List.map_cons, List.map_nil, List.cons_append, Nat.zero_mul, Nat.one_mul,
      Nat.zero_add, two_mul]
  · rw [hrs]
    simp only [readCounts, List.map_map]
    have : ((fun t : Int × Bool × Nat => (t.1, t.2.1)) ∘ fun r : StreamResult Int α β =>
        (r.n, r.ok, r.reads)) = fun r => (r.n, r.ok) := rfl
    rw [this, hn]
    simp [h0, h1, h2, List.replicate]

/-- Witness for C1: the test source whose `j`-th delivered sample is `(j, -j)`.
The hypotheses hold for the fresh test Streamer and three destinations of 100
pairs, and three consecutive reads of size `N` give pair `j` of call `i`
equal to `(i*N + j, -(i*N + j))` for `N` in `{100, 512, 612, 1024}`. -/
theorem Stream_order_preserved_witness :
    ((mockNumberStreamer (fun x : Int => x) (fun x => -x)).InPlace
        (newTestableStreamer (0 : Int) (0 : Int)).buffer ∧
      (newTestableStreamer (0 : Int) (0 : Int)).buffer.length = 2 ∧
      (∀ c ∈ (newTestableStreamer (0 : Int) (0 : Int)).buffer, c.length = 512) ∧
      (newTestableStreamer (0 : Int) (0 : Int)).pos = 512 ∧
      (newTestableStreamer (0 : Int) (0 : Int)).err = none ∧
      (∀ k, readErr (mockNumberStreamer (fun x : Int => x) (fun x => -x)) k
        ((newTestableStreamer (0 : Int) (0 : Int)).stream,
          (newTestableStreamer (0 : Int) (0 : Int)).buffer) = none) ∧
      (([List.replicate 100 ((0 : Int), (0 : Int)), List.replicate 100 (0, 0),
          List.replicate 100 (0, 0)]).map List.length).sum ≤ 512 * 1) ∧
    (∃ rs, streamAll (mockNumberStreamer (fun x : Int => x) (fun x => -x)) (fun x : Int => x)
        (newTestableStreamer (0 : Int) (0 : Int))
        [List.replicate 100 (0, 0), List.replicate 100 (0, 0), List.replicate 100 (0, 0)]
          = Outcome.ret rs ∧
      (rs.map (fun r => r.samples)).flatten
        = (delivered (mockNumberStreamer (fun x : Int => x) (fun x => -x)) (fun x : Int => x) 1
            ((newTestableStreamer (0 : Int) (0 : Int)).stream,
              (newTestableStreamer (0 : Int) (0 : Int)).buffer)).take
            (([List.replicate 100 ((0 : Int), (0 : Int)), List.replicate 100 (0, 0),
              List.replicate 100 (0, 0)]).map List.length).sum) ∧
    filled (streamAll (mockNumberStreamer (fun x : Int => x) (fun x => -x)) (fun x : Int => x)
        (newTestableStreamer (0 : Int) (0 : Int))
        [List.replicate 100 (0, 0), List.replicate 100 (0, 0), List.replicate 100 (0, 0)])
      = testExpectation (fun x : Int => x) (fun x => -x) (fun x : Int => x) 100 ∧
    filled (streamAll (mockNumberStreamer (fun x : Int => x) (fun x => -x)) (fun x : Int => x)
        (newTestableStreamer (0 : Int) (0 : Int))
        [List.replicate 512 (0, 0), List.replicate 512 (0, 0), List.replicate 512 (0, 0)])
      = testExpectation (fun x : Int => x) (fun x => -x) (fun x : Int => x) 512 ∧
    filled (streamAll (mockNumberStreamer (fun x : Int => x) (fun x => -x)) (fun x : Int => x)
        (newTestableStreamer (0 : Int) (0 : Int))
        [List.replicate 612 (0, 0), List.replicate 612 (0, 0), List.replicate 612 (0, 0)])
      = testExpectation (fun x : Int => x) (fun x => -x) (fun x : Int => x) 612 ∧
    filled (streamAll (mockNumberStreamer (fun x : Int => x) (fun x => -x)) (fun x : Int => x)
        (newTestableStreamer (0 : Int) (0 : Int))
        [List.replicate 1024 (0, 0), List.replicate 1024 (0, 0), List.replicate 1024 (0, 0)])
      = testExpectation (fun x : Int => x) (fun x => -x) (fun x : Int => x) 1024 := by
  have hsum : (([List.replicate 100 ((0 : Int), (0 : Int)), List.replicate 100 (0, 0),
      List.replicate 100 (0, 0)]).map List.length).sum ≤ 512 * 1 := by
    simp only [List.map_cons, List.map_nil, List.length_replicate, List.sum_cons, List.sum_nil]
    decide
  have hwf := newTestableStreamer_WF (0 : Int) (0 : Int)
  have hrun := fun (N : Nat) => (testStreamWithSampleSize_run (fun x : Int => x) (fun x => -x)
    (fun x : Int => x) (0 : Int) (List.replicate N (0, 0)) (List.replicate N (0, 0))
    (List.replicate N (0, 0)) N (List.length_replicate _ _) (List.length_replicate _ _)
    (List.length_replicate _ _)).1
  refine ⟨⟨mockNumberStreamer_InPlace _ _ 0 0, rfl, hwf.1.2, rfl, rfl,
    fun k => mockNumberStreamer_readErr _ _ k _, hsum⟩, ?_, hrun 100, hrun 512, hrun 612,
    hrun 1024⟩
  obtain ⟨rs, hrs, _, _, hfl⟩ := Stream_order_preserved
    (mockNumberStreamer (fun x : Int => x) (fun x => -x)) (fun x : Int => x)
    (newTestableStreamer (0 : Int) (0 : Int)) (mockNumberStreamer_InPlace _ _ 0 0) rfl hwf.1.2
    rfl rfl (fun k => mockNumberStreamer_readErr _ _ k _)
    [List.replicate 100 (0, 0), List.replicate 100 (0, 0), List.replicate 100 (0, 0)] 1 hsum
  exact ⟨rs, hrs, hfl⟩

/-- Witness for C7: column 1 of a one-channel and of a two-channel buffer, and a
mono Streamer (one channel of 512 sevens, cursor at 0) asked for 100 pairs. -/
theorem channel_mapping_witness :
    convertBufferIntoSamples (fun x : Int => x) [[5, 6, 7]] ((1 : Nat) : Int) = some (6, 6) ∧
    convertBufferIntoSamples (fun x : Int => x) [[1, 2], [3, 4]] ((1 : Nat) : Int)
      = some (2, 4) ∧
    (mockErrorStreamer : portaudioStream Unit Int).InPlace
      (⟨(), [List.replicate 512 7], 0, none⟩ : Streamer Unit Int).buffer ∧
    (⟨(), [List.replicate 512 7], 0, none⟩ : Streamer Unit Int).WF ∧
    (⟨(), [List.replicate 512 7], 0, none⟩ : Streamer Unit Int).buffer.length = 1 ∧
    ∃ r, (⟨(), [List.replicate 512 7], 0, none⟩ : Streamer Unit Int).Stream mockErrorStreamer
        (fun x : Int => x) (List.replicate 100 (0, 1)) = Outcome.ret r ∧
      ∀ (i : Nat) (p : Int × Int), r.samples[i]? = some p →
        p.1 = p.2 ∨ (List.replicate 100 ((0 : Int), (1 : Int)))[i]? = some p := by
  have hwf : (⟨(), [List.replicate 512 7], 0, none⟩ : Streamer Unit Int).WF := by
    refine ⟨⟨Or.inl rfl, ?_⟩, ?_, ?_⟩
    · intro c hc
      simp only [List.mem_singleton] at hc
      rw [hc, List.length_replicate]
    · show (0 : Int) ≤ 0
      decide
    · show (0 : Int) ≤ 512
      decide
  exact ⟨(channel_mapping (σ := Unit) (fun x : Int => x)).1 [5, 6, 7] 1 (by decide),
    (channel_mapping (σ := Unit) (fun x : Int => x)).2.1 [1, 2] [3, 4] 1 (by decide)
      (by decide),
    mockErrorStreamer_InPlace _, hwf, rfl,
    (channel_mapping (fun x : Int => x)).2.2 mockErrorStreamer _ _
      (mockErrorStreamer_InPlace _) hwf rfl⟩

/-! ## Cursor and destination after a call -/

/-- C12 (cursor update on success).  For every Streamer state with `err = nil`
and the cursor `c` in `[0, 512]`, a `Stream` call of size `N` returns, and when
it returns `(N, true)` the new cursor is `c + N` if `N <= 512 - c` and
`((N - (512 - c) - 1) mod 512) + 1`, a value in `[1, 512]`, otherwise;
equivalently `512 * (number of successful device reads so far) - (512 - pos)`
grows by exactly `N`. -/
theorem Stream_cursor_update (dev : portaudioStream σ α) (w : α → β) (s : Streamer σ α)
    (hd : dev.InPlace s.buffer) (hs : s.WF) (he : s.err = none) (samples : List (β × β)) :
    ∃ r, s.Stream dev w samples = Outcome.ret r ∧
      (r.ok = true →
        r.n = (samples.length : Int) ∧
        ((samples.length : Int) ≤ 512 - s.pos → r.s.pos = s.pos + (samples.length : Int)) ∧
        ((samples.length : Int) > 512 - s.pos →
          r.s.pos = ((samples.length : Int) - (512 - s.pos) - 1) % 512 + 1 ∧
          1 ≤ r.s.pos ∧ r.s.pos ≤ 512) ∧
        ∀ R0 : Int, 512 * (R0 + (r.reads : Int)) - (512 - r.s.pos)
          = 512 * R0 - (512 - s.pos) + (samples.length : Int)) := by
  have h0 := hs.2.1
  have h1 := hs.2.2
  simp only [bufferSize] at h1
  by_cases hN : (samples.length : Int) ≤ 512 - s.pos
  · refine ⟨_, Stream_short dev w s samples hs he hN, fun _ => ⟨rfl, fun _ => rfl, ?_, ?_⟩⟩
    · intro h; omega
    · intro R0
      simp only [Nat.cast_zero]
      omega
  · have hN2 : (samples.length : Int) > 512 - s.pos := by omega
    rcases reads_dichotomy dev (s.stream, s.buffer) (missing s samples) with
      hall | ⟨k, e, hk, hall, hfail⟩
    · refine ⟨_, Stream_ok dev w s hd samples hs he hN2 hall,
        fun _ => ⟨rfl, fun h => absurd h hN, fun _ => ?_, ?_⟩⟩
      · simp only [fetches, missing]
        omega
      · intro R0
        simp only [fetches, missing]
        omega
    · exact ⟨_, Stream_fail dev w s hd samples hs he hN2 k e hk hall hfail,
        fun h => by simp at h⟩

/-- Witness for C12: the fresh test Streamer on the counting device, asked for
612 pairs, is left with the cursor at 100. -/
theorem Stream_cursor_update_witness :
    (mockNumberStreamer (fun x : Int => x) (fun x => -x)).InPlace
      (newTestableStreamer (0 : Int) (0 : Int)).buffer ∧
    (newTestableStreamer (0 : Int) (0 : Int)).WF ∧
    (newTestableStreamer (0 : Int) (0 : Int)).err = none ∧
    ∃ r, (newTestableStreamer (0 : Int) (0 : Int)).Stream
        (mockNumberStreamer (fun x : Int => x) (fun x => -x)) (fun x : Int => x)
        (List.replicate 612 (0, 0)) = Outcome.ret r ∧ r.ok = true ∧ r.s.pos = 100 := by
  refine ⟨mockNumberStreamer_InPlace _ _ 0 0, newTestableStreamer_WF 0 0, rfl, ?_⟩
  obtain ⟨r, hr, h⟩ := Stream_cursor_update
    (mockNumberStreamer (fun x : Int => x) (fun x => -x)) (fun x : Int => x)
    (newTestableStreamer (0 : Int) (0 : Int)) (mockNumberStreamer_InPlace _ _ 0 0)
    (newTestableStreamer_WF 0 0) rfl (List.replicate 612 (0, 0))
  have hN : (((List.replicate 612 ((0 : Int), (0 : Int))).length : Nat) : Int)
      > 512 - (newTestableStreamer (0 : Int) (0 : Int)).pos := by
    rw [List.length_replicate]; decide
  have hok : r.ok = true := by
    have h2 := Stream_ok (mockNumberStreamer (fun x : Int => x) (fun x => -x))
      (fun x : Int => x) (newTestableStreamer (0 : Int) (0 : Int))
      (mockNumberStreamer_InPlace _ _ 0 0) (List.replicate 612 (0, 0))
      (newTestableStreamer_WF 0 0) rfl hN (fun k _ => mockNumberStreamer_readErr _ _ k _)
    exact congrArg StreamResult.ok (Outcome.ret.inj (hr.symm.trans h2))
  obtain ⟨_, _, h3, _⟩ := h hok
  have h4 := (h3 hN).1
  rw [List.length_replicate] at h4
  have hp : (newTestableStreamer (0 : Int) (0 : Int)).pos = 512 := rfl
  rw [hp] at h4
  exact ⟨r, hr, hok, by omega⟩

/-- C14 (effect of a failing read).  Every `Stream` call on a Streamer of the
data model returns, and a call that returns `false` leaves `pos` unchanged.
If `err = nil`, the destination is larger than the `512 - pos` pairs left in
the chunk and the first device `Read` fails, then the call returns
`(0, false)` after that one read, `pos` is unchanged, destination entry `i`
for `i < 512 - pos` holds the converted column `pos + i` of the old chunk, and
the entries from index `512 - pos` on are unchanged. -/
theorem Stream_failed_read_effect (dev : portaudioStream σ α) (w : α → β) (s : Streamer σ α)
    (hd : dev.InPlace s.buffer) (hs : s.WF) (samples : List (β × β)) :
    ∃ r, s.Stream dev w samples = Outcome.ret r ∧
      (r.ok = false → r.s.pos = s.pos) ∧
      (s.err = none → (samples.length : Int) > 512 - s.pos →
        readErr dev 0 (s.stream, s.buffer) ≠ none →
        r.n = 0 ∧ r.ok = false ∧ r.reads = 1 ∧ r.s.pos = s.pos ∧
        r.samples.length = samples.length ∧
        (∀ i : Nat, (i : Int) < 512 - s.pos →
          r.samples[i]? = convertBufferIntoSamples w s.buffer (s.pos + (i : Int))) ∧
        (∀ i : Nat, (i : Int) ≥ 512 - s.pos → r.samples[i]? = samples[i]?)) := by
  have hw := length_widenColumns w _ hs.1
  have h0 := hs.2.1
  have h1 := hs.2.2
  simp only [bufferSize] at h1
  by_cases he : s.err = none
  · by_cases hN : (samples.length : Int) ≤ 512 - s.pos
    · refine ⟨_, Stream_short dev w s samples hs he hN, fun h => by simp at h, ?_⟩
      intro _ h; omega
    · have hN2 : (samples.length : Int) > 512 - s.pos := by omega
      rcases reads_dichotomy dev (s.stream, s.buffer) (missing s samples) with
        hall | ⟨k, e, hk, hall, hfail⟩
      · refine ⟨_, Stream_ok dev w s hd samples hs he hN2 hall, fun h => by simp at h, ?_⟩
        intro _ _ hne
        exact absurd (hall 0 (by simp only [missing]; omega)) hne
      · refine ⟨_, Stream_fail dev w s hd samples hs he hN2 k e hk hall hfail,
          fun _ => rfl, ?_⟩
        intro _ _ hne
        have hk0 : k = 0 := by
          by_contra hk0
          exact hne (hall 0 (by omega))
        subst hk0
        have hlC : ((widenColumns w s.buffer).drop s.pos.toNat).length = 512 - s.pos.toNat := by
          rw [List.length_drop, hw]
        refine ⟨rfl, rfl, rfl, rfl, ?_, ?_, ?_⟩
        · simp only [delivered, List.append_nil, Nat.mul_zero, Nat.add_zero]
          rw [List.length_append, hlC, List.length_drop]
          omega
        · intro i hi
          simp only [delivered, List.append_nil, Nat.mul_zero, Nat.add_zero]
          rw [List.getElem?_append_left (by rw [hlC]; omega), List.getElem?_drop,
            ← convert_natCast]
          congr 1
          push_cast
          omega
        · intro i hi
          simp only [delivered, List.append_nil, Nat.mul_zero, Nat.add_zero]
          rw [List.getElem?_append_right (by rw [hlC]; omega), hlC, List.getElem?_drop]
          congr 1
          omega
  · refine ⟨_, Stream_of_err dev w s he samples, fun _ => rfl, ?_⟩
    intro h; exact absurd h he

/-- Witness for C14: the fresh test Streamer with its cursor moved to 500 on
the always-failing device, asked for 100 pairs: 12 pairs are copied, the
read fails, and the cursor is still 500. -/
theorem Stream_failed_read_effect_witness :
    (mockErrorStreamer : portaudioStream Unit Int).InPlace
      ({ newTestableStreamer (0 : Int) () with pos := 500 } : Streamer Unit Int).buffer ∧
    ({ newTestableStreamer (0 : Int) () with pos := 500 } : Streamer Unit Int).WF ∧
    ∃ r, ({ newTestableStreamer (0 : Int) () with pos := 500 } : Streamer Unit Int).Stream
        mockErrorStreamer (fun x : Int => x) (List.replicate 100 (1, 1)) = Outcome.ret r ∧
      r.n = 0 ∧ r.ok = false ∧ r.reads = 1 ∧ r.s.pos = 500 := by
  have hwf : ({ newTestableStreamer (0 : Int) () with pos := 500 } : Streamer Unit Int).WF := by
    refine ⟨(newTestableStreamer_WF (0 : Int) ()).1, ?_, ?_⟩
    · show (0 : Int) ≤ 500
      decide
    · show (500 : Int) ≤ 512
      decide
  refine ⟨mockErrorStreamer_InPlace _, hwf, ?_⟩
  obtain ⟨r, hr, _, h⟩ := Stream_failed_read_effect mockErrorStreamer (fun x : Int => x)
    ({ newTestableStreamer (0 : Int) () with pos := 500 } : Streamer Unit Int)
    (mockErrorStreamer_InPlace _) hwf (List.replicate 100 (1, 1))
  obtain ⟨a, b, c, d, _⟩ := h rfl (by rw [List.length_replicate]; decide)
    (by rw [mockErrorStreamer_readErr]; simp)
  exact ⟨r, hr, a, b, c, d⟩

/-! ## Lifecycle and error query -/

/-- After a lifecycle call the Streamer streams as before: a Streamer that
differs from `s` only in the device state and has no recorded error is not
short-circuited. -/
theorem Stream_not_short_circuited (dev : portaudioStream σ α) (w : α → β) (s : Streamer σ α)
    (hd : dev.InPlace s.buffer) (hs : s.WF) (he : s.err = none) (samples : List (β × β)) :
    ∃ r, s.Stream dev w samples = Outcome.ret r ∧
      ((samples.length : Int) ≤ 512 - s.pos → r.n = (samples.length : Int) ∧ r.ok = true) ∧
      ((samples.length : Int) > 512 - s.pos → 1 ≤ r.reads) := by
  have h0 := hs.2.1
  have h1 := hs.2.2
  simp only [bufferSize] at h1
  by_cases hN : (samples.length : Int) ≤ 512 - s.pos
  · exact ⟨_, Stream_short dev w s samples hs he hN, fun _ => ⟨rfl, rfl⟩, fun h => by omega⟩
  · have hN2 : (samples.length : Int) > 512 - s.pos := by omega
    rcases reads_dichotomy dev (s.stream, s.buffer) (missing s samples) with
      hall | ⟨k, e, hk, hall, hfail⟩
    · refine ⟨_, Stream_ok dev w s hd samples hs he hN2 hall, fun h => absurd h hN, fun _ => ?_⟩
      simp only [fetches, missing]
      omega
    · exact ⟨_, Stream_fail dev w s hd samples hs he hN2 k e hk hall hfail,
        fun h => absurd h hN, fun _ => Nat.le_add_left 1 k⟩

/-- C13 (lifecycle forwarding).  `Start`, `Stop` and `Close` each return the
result of the corresponding device operation verbatim and leave the device in
the state one such operation produces, with `pos`, the chunk buffer and `err`
unchanged; in particular a failing `Start`, `Stop` or `Close` does not set the
sticky error, and a `Stream` call made afterwards on a Streamer with
`err = nil` is not short-circuited: it fills a destination the chunk can
serve and otherwise goes to the device for a `Read`. -/
theorem lifecycle_forwarding (dev : portaudioStream σ α) (s : Streamer σ α) :
    ((s.Start dev).1 = (dev.Start s.stream).1 ∧
      (s.Start dev).2 = ⟨(dev.Start s.stream).2, s.buffer, s.pos, s.err⟩) ∧
    ((s.Stop dev).1 = (dev.Stop s.stream).1 ∧
      (s.Stop dev).2 = ⟨(dev.Stop s.stream).2, s.buffer, s.pos, s.err⟩) ∧
    ((s.Close dev).1 = (dev.Close s.stream).1 ∧
      (s.Close dev).2 = ⟨(dev.Close s.stream).2, s.buffer, s.pos, s.err⟩) ∧
    (∀ t ∈ [(s.Start dev).2, (s.Stop dev).2, (s.Close dev).2],
      t.pos = s.pos ∧ t.buffer = s.buffer ∧ t.err = s.err ∧ t.Err = s.Err) ∧
    (s.err = none → s.WF → dev.InPlace s.buffer →
      ∀ t ∈ [(s.Start dev).2, (s.Stop dev).2, (s.Close dev).2],
      ∀ (w : α → β) (samples : List (β × β)),
        ∃ r, t.Stream dev w samples = Outcome.ret r ∧
          ((samples.length : Int) ≤ 512 - s.pos →
            r.n = (samples.length : Int) ∧ r.ok = true) ∧
          ((samples.length : Int) > 512 - s.pos → 1 ≤ r.reads)) := by
  refine ⟨⟨rfl, rfl⟩, ⟨rfl, rfl⟩, ⟨rfl, rfl⟩, ?_, ?_⟩
  · intro t ht
    simp only [List.mem_cons, List.mem_singleton, List.not_mem_nil, or_false] at ht
    rcases ht with rfl | rfl | rfl <;> exact ⟨rfl, rfl, rfl, rfl⟩
  · intro he hs hd t ht w samples
    simp only [List.mem_cons, List.mem_singleton, List.not_mem_nil, or_false] at ht
    rcases ht with rfl | rfl | rfl
    · exact Stream_not_short_circuited dev w (s.Start dev).2 hd hs he samples
    · exact Stream_not_short_circuited dev w (s.Stop dev).2 hd hs he samples
    · exact Stream_not_short_circuited dev w (s.Close dev).2 hd hs he samples

/-- Witness for C13: on a device whose `Start` fails with `ErrTest`, `Start`
returns `ErrTest`, the device has seen one call, the sticky error stays nil and
the next `Stream` call of 100 pairs goes to the device and succeeds. -/
theorem lifecycle_forwarding_witness :
    ((newTestableStreamer (0 : Int) (0 : Nat)).Start failingLifecycle).1 = some ErrTest ∧
    ((newTestableStreamer (0 : Int) (0 : Nat)).Start failingLifecycle).2
      = ⟨1, (newTestableStreamer (0 : Int) (0 : Nat)).buffer, 512, none⟩ ∧
    (newTestableStreamer (0 : Int) (0 : Nat)).err = none ∧
    (newTestableStreamer (0 : Int) (0 : Nat)).WF ∧
    (failingLifecycle : portaudioStream Nat Int).InPlace
      (newTestableStreamer (0 : Int) (0 : Nat)).buffer ∧
    ∃ r, ((newTestableStreamer (0 : Int) (0 : Nat)).Start failingLifecycle).2.Stream
        failingLifecycle (fun x : Int => x) (List.replicate 100 (0, 0)) = Outcome.ret r ∧
      1 ≤ r.reads := by
  have hd : (failingLifecycle : portaudioStream Nat Int).InPlace
      (newTestableStreamer (0 : Int) (0 : Nat)).buffer := fun _ _ h => h
  have h := lifecycle_forwarding (β := Int) failingLifecycle
    (newTestableStreamer (0 : Int) (0 : Nat))
  refine ⟨h.1.1, h.1.2, rfl, newTestableStreamer_WF 0 0, hd, ?_⟩
  obtain ⟨r, hr, _, h2⟩ := h.2.2.2.2 rfl (newTestableStreamer_WF 0 0) hd
    ((newTestableStreamer (0 : Int) (0 : Nat)).Start failingLifecycle).2
    (List.mem_cons_self _ _) (fun x : Int => x) (List.replicate 100 (0, 0))
  exact ⟨r, hr, h2 (by rw [List.length_replicate]; decide)⟩

/-- One call from a Streamer without a recorded error: where the device and the
buffer are left, and when the error stays nil. -/
theorem Stream_reads (dev : portaudioStream σ α) (w : α → β) (s : Streamer σ α)
    (hd : dev.InPlace s.buffer) (hs : s.WF) (he : s.err = none) (samples : List (β × β)) :
    ∃ r, s.Stream dev w samples = Outcome.ret r ∧ r.s.WF ∧ dev.InPlace r.s.buffer ∧
      (r.s.stream, r.s.buffer) = readState dev r.reads (s.stream, s.buffer) ∧
      ((∀ k, k < r.reads → readErr dev k (s.stream, s.buffer) = none) →
        r.s.err = none ∧ r.ok = true) := by
  have h0 := hs.2.1
  have h1 := hs.2.2
  simp only [bufferSize] at h1
  by_cases hN : (samples.length : Int) ≤ 512 - s.pos
  · refine ⟨_, Stream_short dev w s samples hs he hN, ⟨hs.1, ?_, ?_⟩, hd, rfl,
      fun _ => ⟨he, rfl⟩⟩
    · simp only; omega
    · simp only [bufferSize]; omega
  · have hN2 : (samples.length : Int) > 512 - s.pos := by omega
    have hm : 0 < missing s samples := by simp only [missing]; omega
    rcases reads_dichotomy dev (s.stream, s.buffer) (missing s samples) with
      hall | ⟨k, e, hk, hall, hfail⟩
    · have hsh := readState_shape hd (fetches s samples) (s.stream, s.buffer) rfl
      refine ⟨_, Stream_ok dev w s hd samples hs he hN2 hall,
        ⟨Chunk.of_map_length hsh hs.1, ?_, ?_⟩, InPlace.of_shape hsh hd, rfl,
        fun _ => ⟨rfl, rfl⟩⟩
      · simp only [fetches]; omega
      · simp only [fetches, bufferSize]; omega
    · have hsh := readState_shape hd (k + 1) (s.stream, s.buffer) rfl
      refine ⟨_, Stream_fail dev w s hd samples hs he hN2 k e hk hall hfail,
        ⟨Chunk.of_map_length hsh hs.1, h0, hs.2.2⟩, InPlace.of_shape hsh hd, rfl, ?_⟩
      intro hnone
      have := hnone k (Nat.lt_succ_self k)
      rw [hfail] at this
      cases this

/-- Consecutive calls always return; if every device read they made succeeded,
no call recorded an error and every call reported success. -/
theorem streamAll_err_none (dev : portaudioStream σ α) (w : α → β) :
    ∀ (dests : List (List (β × β))) (s : Streamer σ α),
      dev.InPlace s.buffer → s.WF →
      ∃ rs, streamAll dev w s dests = Outcome.ret rs ∧
        (s.err = none →
          (∀ k, k < (rs.map (fun r => r.reads)).sum →
            readErr dev k (s.stream, s.buffer) = none) →
          ∀ r ∈ rs, r.s.err = none ∧ r.ok = true) := by
  intro dests
  induction dests with
  | nil =>
    intro s _ _
    exact ⟨[], rfl, fun _ _ r hr => absurd hr (List.not_mem_nil r)⟩
  | cons d ds ih =>
    intro s hd hs
    by_cases he : s.err = none
    · obtain ⟨r, hr, hwf, hd2, hst, herr⟩ := Stream_reads dev w s hd hs he d
      obtain ⟨rs, hrs, himp⟩ := ih r.s hd2 hwf
      refine ⟨r :: rs, by simp only [streamAll, hr, hrs], ?_⟩
      intro _ hall t ht
      simp only [List.map_cons, List.sum_cons] at hall
      have h1 := herr (fun k hk => hall k (by omega))
      rcases List.mem_cons.mp ht with rfl | ht
      · exact h1
      · refine himp h1.1 ?_ t ht
        intro k hk
        rw [hst, readErr_add]
        exact hall _ (by omega)
    · obtain ⟨rs, hrs, _⟩ := ih s hd hs
      refine ⟨⟨0, false, s, d, 0⟩ :: rs, ?_, fun h => absurd h he⟩
      simp only [streamAll, Stream_of_err dev w s he d, hrs]

/-- C11 (`Err` is a pure query that reports nil until a fetch fails).  For
every Streamer, with or without a recorded error, `Err()` returns the stored
`err`; in the embedding it is a function of the Streamer alone, so it reaches
no device operation and produces no new Streamer.  Any sequence of `Stream`
calls from a Streamer of the data model returns, and when the Streamer had no
recorded error (a fresh one in particular) and every device `Read` the calls
made succeeded, `Err()` is nil before the calls and after every call, the last
one included. -/
theorem Err_pure_query :
    (∀ s : Streamer σ α, s.Err = s.err) ∧
    (∀ (dev : portaudioStream σ α) (w : α → β) (s : Streamer σ α)
        (dests : List (List (β × β))),
      dev.InPlace s.buffer → s.WF →
      ∃ rs, streamAll dev w s dests = Outcome.ret rs ∧
        (s.err = none →
          s.Err = none ∧
          ((∀ k, k < (rs.map (fun r => r.reads)).sum →
              readErr dev k (s.stream, s.buffer) = none) →
            ∀ r ∈ rs, r.s.Err = none ∧ r.ok = true))) := by
  refine ⟨fun _ => rfl, ?_⟩
  intro dev w s dests hd hs
  obtain ⟨rs, hrs, himp⟩ := streamAll_err_none dev w dests s hd hs
  exact ⟨rs, hrs, fun he => ⟨he, fun hall r hr => himp he hall r hr⟩⟩

/-- Witness for C11: `Err()` on a Streamer with `ErrTest` recorded returns
`ErrTest`; `TestStreamer_Stream_onError` asserts `Err()` is nil on the fresh
test Streamer, and it is still nil after each of three reads of 612 pairs on
the counting device. -/
theorem Err_pure_query_witness :
    (⟨(), [[0], [0]], 512, some ErrTest⟩ : Streamer Unit Int).Err = some ErrTest ∧
    (mockNumberStreamer (fun x : Int => x) (fun x => -x)).InPlace
      (newTestableStreamer (0 : Int) (0 : Int)).buffer ∧
    (newTestableStreamer (0 : Int) (0 : Int)).WF ∧
    (newTestableStreamer (0 : Int) (0 : Int)).err = none ∧
    (newTestableStreamer (0 : Int) (0 : Int)).Err = none ∧
    ∃ rs, streamAll (mockNumberStreamer (fun x : Int => x) (fun x => -x)) (fun x : Int => x)
        (newTestableStreamer (0 : Int) (0 : Int))
        [List.replicate 612 (0, 0), List.replicate 612 (0, 0), List.replicate 612 (0, 0)]
          = Outcome.ret rs ∧
      ∀ r ∈ rs, r.s.Err = none ∧ r.ok = true := by
  obtain ⟨rs, hrs, h⟩ := (Err_pure_query (β := Int)).2
    (mockNumberStreamer (fun x : Int => x) (fun x => -x)) (fun x : Int => x)
    (newTestableStreamer (0 : Int) (0 : Int))
    [List.replicate 612 (0, 0), List.replicate 612 (0, 0), List.replicate 612 (0, 0)]
    (mockNumberStreamer_InPlace _ _ 0 0) (newTestableStreamer_WF 0 0)
  exact ⟨(Err_pure_query (σ := Unit) (α := Int) (β := Int)).1 _,
    mockNumberStreamer_InPlace _ _ 0 0, newTestableStreamer_WF 0 0, rfl, (h rfl).1, rs, hrs,
    (h rfl).2 (fun k _ => mockNumberStreamer_readErr _ _ k _)⟩

/-! ## Index safety -/

theorem mem_copyIdx (src dst : Int) :
    ∀ (k : Nat) (i : Int) (a : Int × Int), a ∈ copyIdx src dst k i →
      ∃ j : Nat, j < k ∧ a = (src + i + (j : Int), dst + i + (j : Int)) := by
  intro k
  induction k with
  | zero => intro i a ha; simp [copyIdx] at ha
  | succ k ih =>
    intro i a ha
    simp only [copyIdx, List.mem_cons] at ha
    rcases ha with rfl | ha
    · exact ⟨0, Nat.succ_pos k, by simp⟩
    · obtain ⟨j, hj, rfl⟩ := ih (i + 1) a ha
      refine ⟨j + 1, by omega, ?_⟩
      push_cast
      congr 1 <;> ring

theorem fetchIdx_bounds (dev : portaudioStream σ α) (len : Nat) :
    ∀ (fuel : Nat) (s : Streamer σ α) (n : Int), 0 ≤ n → n < (len : Int) →
      ∀ a ∈ fetchIdx dev fuel s (len : Int) n,
        0 ≤ a.1 ∧ a.1 < 512 ∧ 0 ≤ a.2 ∧ a.2 < (len : Int) := by
  intro fuel
  induction fuel with
  | zero => intro s n _ _ a ha; simp [fetchIdx] at ha
  | succ fuel ih =>
    intro s n h0 h1 a ha
    rw [fetchIdx] at ha
    rcases hr : dev.Read s.stream s.buffer with ⟨e, st, buf⟩
    rw [hr] at ha
    cases e with
    | some e => simp at ha
    | none =>
      simp only [] at ha
      by_cases hbig : n + bufferSize > (len : Int)
      · rw [if_pos hbig] at ha
        have hend : n + ((len : Int) - n) = (len : Int) := by omega
        rw [if_pos hend, List.append_nil] at ha
        obtain ⟨j, hj, rfl⟩ := mem_copyIdx _ _ _ _ _ ha
        simp only [bufferSize] at hbig
        simp only
        omega
      · rw [if_neg hbig] at ha
        simp only [bufferSize] at hbig ha
        rcases List.mem_append.mp ha with ha | ha
        · obtain ⟨j, hj, rfl⟩ := mem_copyIdx _ _ _ _ _ ha
          have : (512 : Int).toNat = 512 := rfl
          rw [this] at hj
          simp only
          omega
        · by_cases hend : n + 512 = (len : Int)
          · rw [if_pos hend] at ha
            simp at ha
          · rw [if_neg hend] at ha
            exact ih _ (n + 512) (by omega) (by omega) a ha

theorem accesses_bounds (dev : portaudioStream σ α) (s : Streamer σ α) (len : Nat)
    (h0 : 0 ≤ s.pos) (h1 : s.pos ≤ 512) :
    ∀ a ∈ s.accesses dev len, 0 ≤ a.1 ∧ a.1 < 512 ∧ 0 ≤ a.2 ∧ a.2 < (len : Int) := by
  intro a ha
  unfold Streamer.accesses at ha
  by_cases he : s.err.isSome = true
  · rw [if_pos he] at ha
    simp at ha
  · rw [if_neg he] at ha
    simp only [bufferSize] at ha
    by_cases hN : 512 - s.pos > (len : Int)
    · rw [if_pos hN] at ha
      simp only [if_true, List.append_nil, Int.toNat_ofNat] at ha
      obtain ⟨j, hj, rfl⟩ := mem_copyIdx _ _ _ _ _ ha
      simp only
      omega
    · rw [if_neg hN] at ha
      rcases List.mem_append.mp ha with ha | ha
      · obtain ⟨j, hj, rfl⟩ := mem_copyIdx _ _ _ _ _ ha
        simp only
        omega
      · by_cases hend : 512 - s.pos = (len : Int)
        · rw [if_pos hend] at ha
          simp at ha
        · rw [if_neg hend] at ha
          exact fetchIdx_bounds dev len _ s (512 - s.pos) (by omega) (by omega) a ha

theorem index_neg {γ : Type} (xs : List γ) (p : Int) (hp : p < 0) : index xs p = none := by
  unfold index
  rw [if_neg (by omega)]

theorem convert_ne_none_iff (w : α → β) (buffer : List (List α)) (hc : Chunk buffer)
    (p : Int) : convertBufferIntoSamples w buffer p ≠ none ↔ 0 ≤ p ∧ p < 512 := by
  have hw := length_widenColumns w buffer hc
  by_cases h0 : 0 ≤ p
  · obtain ⟨q, rfl⟩ := Int.eq_ofNat_of_zero_le h0
    rw [convert_natCast, ne_eq, List.getElem?_eq_none_iff, hw]
    omega
  · have hneg : p < 0 := by omega
    have hnone : convertBufferIntoSamples w buffer p = none := by
      unfold convertBufferIntoSamples
      have hb : ∀ o : Option (List α), (o.bind fun c => index c p) = none := by
        intro o
        cases o with
        | none => rfl
        | some c => exact index_neg c p hneg
      rw [hb, hb]
      split <;> rfl
    rw [hnone]
    constructor
    · intro h; exact absurd rfl h
    · intro h; omega

/-- A copy loop completes without a panic exactly when every index pair it
uses is in range. -/
theorem copyLoop_ne_none_iff (w : α → β) (buffer : List (List α)) (hc : Chunk buffer)
    (src dst : Int) :
    ∀ (k : Nat) (i : Int) (xs : List (β × β)),
      copyLoop w buffer src dst k i xs ≠ none ↔
        ∀ a ∈ copyIdx src dst k i,
          0 ≤ a.1 ∧ a.1 < 512 ∧ 0 ≤ a.2 ∧ a.2 < (xs.length : Int) := by
  intro k
  induction k with
  | zero =>
    intro i xs
    simp [copyLoop, copyIdx]
  | succ k ih =>
    intro i xs
    simp only [copyLoop, copyIdx, List.forall_mem_cons]
    have hcv := convert_ne_none_iff w buffer hc (src + i)
    cases hconv : convertBufferIntoSamples w buffer (src + i) with
    | none =>
      rw [hconv] at hcv
      simp only [ne_eq, not_true_eq_false, false_iff] at hcv ⊢
      intro h
      exact hcv ⟨h.1.1, h.1.2.1⟩
    | some v =>
      rw [hconv] at hcv
      have hin := hcv.mp (by simp)
      simp only []
      by_cases hd : 0 ≤ dst + i ∧ dst + i < (xs.length : Int)
      · have ha : assign xs (dst + i) v = some (xs.set (dst + i).toNat v) := by
          unfold assign
          rw [if_pos hd]
        rw [ha]
        simp only []
        rw [ih (i + 1) (xs.set (dst + i).toNat v), List.length_set]
        constructor
        · intro h
          exact ⟨⟨hin.1, hin.2, hd.1, hd.2⟩, h⟩
        · intro h
          exact h.2
      · have ha : assign xs (dst + i) v = none := by
          unfold assign
          rw [if_neg hd]
        rw [ha]
        simp only [ne_eq, not_true_eq_false, false_iff]
        intro h
        exact hd ⟨h.1.2.2.1, h.1.2.2.2⟩

/-- C15 (index safety).  For every Streamer state with one or two channel
buffers of exactly 512 entries and `0 <= pos <= 512`, every destination size
`N` and every outcome of the device reads: the call returns (no out-of-range
access, which would be a panic, occurs); each buffer index the call uses
(`pos + i` in the first copy, `i` in a refill copy) lies in `[0, 512)` and each
destination index (`i` and `n + i`) lies in `[0, N)`; and a copy loop on a
chunk completes exactly when all its index pairs are in range. -/
theorem Stream_index_safety (dev : portaudioStream σ α) (w : α → β) (s : Streamer σ α)
    (hd : dev.InPlace s.buffer) (hs : s.WF) (samples : List (β × β)) :
    (∃ r, s.Stream dev w samples = Outcome.ret r) ∧
    (∀ a ∈ s.accesses dev samples.length,
      0 ≤ a.1 ∧ a.1 < 512 ∧ 0 ≤ a.2 ∧ a.2 < (samples.length : Int)) ∧
    (∀ (buffer : List (List α)) (src dst : Int) (k : Nat) (i : Int) (xs : List (β × β)),
      Chunk buffer →
      (copyLoop w buffer src dst k i xs ≠ none ↔
        ∀ a ∈ copyIdx src dst k i,
          0 ≤ a.1 ∧ a.1 < 512 ∧ 0 ≤ a.2 ∧ a.2 < (xs.length : Int))) := by
  obtain ⟨r, hr, _, _⟩ := Stream_WF dev w s hd hs samples
  exact ⟨⟨r, hr⟩, accesses_bounds dev s samples.length hs.2.1 hs.2.2,
    fun buffer src dst k i xs hc => copyLoop_ne_none_iff w buffer hc src dst k i xs⟩

/-- Witness for C15: the fresh test Streamer on the counting device, asked for
612 pairs. -/
theorem Stream_index_safety_witness :
    (mockNumberStreamer (fun x : Int => x) (fun x => -x)).InPlace
      (newTestableStreamer (0 : Int) (0 : Int)).buffer ∧
    (newTestableStreamer (0 : Int) (0 : Int)).WF ∧
    (∃ r, (newTestableStreamer (0 : Int) (0 : Int)).Stream
        (mockNumberStreamer (fun x : Int => x) (fun x => -x)) (fun x : Int => x)
        (List.replicate 612 (0, 0)) = Outcome.ret r) ∧
    ∀ a ∈ (newTestableStreamer (0 : Int) (0 : Int)).accesses
        (mockNumberStreamer (fun x : Int => x) (fun x => -x))
        (List.replicate 612 ((0 : Int), (0 : Int))).length,
      0 ≤ a.1 ∧ a.1 < 512 ∧ 0 ≤ a.2
        ∧ a.2 < ((List.replicate 612 ((0 : Int), (0 : Int))).length : Int) :=
  ⟨mockNumberStreamer_InPlace _ _ 0 0, newTestableStreamer_WF 0 0,
    (Stream_index_safety (mockNumberStreamer (fun x : Int => x) (fun x => -x))
      (fun x : Int => x) (newTestableStreamer (0 : Int) (0 : Int))
      (mockNumberStreamer_InPlace _ _ 0 0) (newTestableStreamer_WF 0 0)
      (List.replicate 612 (0, 0))).1,
    (Stream_index_safety (mockNumberStreamer (fun x : Int => x) (fun x => -x))
      (fun x : Int => x) (newTestableStreamer (0 : Int) (0 : Int))
      (mockNumberStreamer_InPlace _ _ 0 0) (newTestableStreamer_WF 0 0)
      (List.replicate 612 (0, 0))).2.1⟩

end Microphone
